import Mathlib

/-!
# Percussion trigger controller: ADS1115 reader and trigger dispatch

A shallow embedding of `src/src/main.c` (channel/sound table, OSC dispatch, edge
detector over the six sampled values, sampling loop, key handler) and of
`src/src/ads1115_reader.c` (channel addressing, configuration word, polling, sample
composition), followed by the properties proved about them.

Conventions of the embedding.
* C `int` values are `Int`; `int16_t` values are `Int` in the range of `toInt16`;
  bytes (`uint8_t`) are `Nat` below 256.
* The three global arrays of `main.c` have exactly six cells and are `Fin 6 → _`;
  an `int` index becomes a `Fin 6` only under the bounds guard of the source.
* A `float` argument is a rational number; the only values the program passes are
  `1.0f`/`1` and `0.0f`/`0`, which are the rationals `1` and `0`.
* Everything a function does to the outside (OSC messages, lines written to the
  standard output) is returned as a list of `Effect`s, oldest first; the calls of the
  reader on the bus are returned as a list of `Call`s.
* The `while (1)` polling loops run for at most `fuel` iterations; a loop cut off by the
  fuel yields no return value (`none`), and the loops are shown to end within 101001
  iterations on any bus whose clock advances.
-/

namespace DrumKit

/-! ## main.c -/

/-- The constant `ADS_THRESHOLD` of main.c. -/
def ADS_THRESHOLD : Int := 500

/-- The constant `NUM_CHANNELS` of main.c. -/
def NUM_CHANNELS : Int := 6

/-- The enumerator `SOUND_COUNT` of `SoundType`: the number of sounds. -/
def SOUND_COUNT : Int := 8

def SOUND_KICK : Int := 0
def SOUND_SNARE : Int := 1
def SOUND_HIHAT : Int := 2
def SOUND_OPEN_HIHAT : Int := 3
def SOUND_BASS_TOM : Int := 4
def SOUND_MED_TOM : Int := 5
def SOUND_HIGH_TOM : Int := 6
def SOUND_CRASH : Int := 7

/-- The table `sound_names[SOUND_COUNT]`. -/
def sound_names : List String :=
  ["Kick", "Snare", "Hihat", "OpenHihat", "BassTom", "MedTom", "HighTom", "Crash"]

/-- The read `sound_names[sound]`. The source only performs it for a sound taken from
`channel_mapping` or one that passed the range check; outside the table (undefined
behaviour in C) the embedding yields the empty string. -/
def sound_name (sound : Int) : String :=
  if sound < 0 then "" else sound_names.getD sound.toNat ""

/-- What the program does to the outside world. -/
inductive Effect
  /-- The call `lo_send(t, path, "f", value)`. -/
  | lo_send (path : String) (value : ℚ)
  /-- The line `printf("Invalid channel: %d\n", channel)`. -/
  | printf_invalid_channel (channel : Int)
  /-- The line `printf("Invalid sound: %d\n", sound)`. -/
  | printf_invalid_sound (sound : Int)
  /-- The line `printf("Channel %d mapped to %s\n", channel, name)`. -/
  | printf_mapped (channel : Int) (name : String)
  /-- The line `printf("ADS ch%d triggered -> Faust ch%d (value: %d)\n", ...)`. -/
  | printf_triggered (ads faust value : Int)
  /-- The line `printf("ADS ch%d released -> Faust ch%d (value: %d)\n", ...)`. -/
  | printf_released (ads faust value : Int)
  deriving DecidableEq, Repr

/-- The global arrays of main.c: `channel_mapping`, `prev_ads_values`, `ads_triggered`. -/
structure Globals where
  channel_mapping : Fin 6 → Int
  prev_ads_values : Fin 6 → Int
  ads_triggered : Fin 6 → Bool

/-- The initialiser of `channel_mapping`. -/
def default_channel_mapping : Fin 6 → Int := fun i =>
  [SOUND_KICK, SOUND_SNARE, SOUND_HIHAT, SOUND_OPEN_HIHAT, SOUND_BASS_TOM, SOUND_CRASH].getD i.val 0

/-- The globals with `prev_ads_values = {0}` and `ads_triggered = {false}`, as initialised
at program load, for a given content of `channel_mapping`. -/
def globals_at_load (mapping : Fin 6 → Int) : Globals :=
  { channel_mapping := mapping
    prev_ads_values := fun _ => 0
    ads_triggered := fun _ => false }

/-- The globals as initialised at program load, with the default mapping. -/
def initial_globals : Globals := globals_at_load default_channel_mapping

/-- An `int` that passed a `0 <= i && i < NUM_CHANNELS` guard, as an index of a six-cell
array. -/
def index6 (i : Int) (h0 : 0 ≤ i) (h1 : i < 6) : Fin 6 := ⟨i.toNat, by omega⟩

/-- The function `set_channel_mapping(channel, sound)`. -/
def set_channel_mapping (g : Globals) (channel sound : Int) : Globals × List Effect :=
  if h : channel < 0 ∨ channel ≥ NUM_CHANNELS then
    (g, [Effect.printf_invalid_channel channel])
  else if sound < 0 ∨ sound ≥ SOUND_COUNT then
    (g, [Effect.printf_invalid_sound sound])
  else
    let i : Fin 6 := index6 channel (by omega) (by unfold NUM_CHANNELS at h; omega)
    ({ g with channel_mapping := Function.update g.channel_mapping i sound },
     [Effect.printf_mapped channel (sound_name sound)])

/-- The call `snprintf(osc_path, sizeof(osc_path), "/drumkit/%s", sound_name)` with a
256-byte buffer: at most 255 characters are kept. -/
def osc_path (name : String) : String :=
  String.mk (("/drumkit/" ++ name).toList.take 255)

/-- The function `set_channel_trigger(t, channel, value)`; it changes no global. -/
def set_channel_trigger (g : Globals) (channel : Int) (value : ℚ) : List Effect :=
  if h : channel < 0 ∨ channel ≥ NUM_CHANNELS then
    [Effect.printf_invalid_channel channel]
  else
    let i : Fin 6 := index6 channel (by omega) (by unfold NUM_CHANNELS at h; omega)
    let sound := g.channel_mapping i
    [Effect.lo_send (osc_path (sound_name sound)) value]

/-- The condition of line 185, on the flag `ads_triggered[ads_ch]`, `current_value` and
`prev_value`: a rising edge. -/
def rising_edge (triggered : Bool) (current_value prev_value : Int) : Prop :=
  triggered = false ∧ current_value > ADS_THRESHOLD ∧ prev_value ≤ ADS_THRESHOLD

/-- The condition of line 192: a falling edge. -/
def falling_edge (triggered : Bool) (current_value prev_value : Int) : Prop :=
  triggered = true ∧ current_value ≤ ADS_THRESHOLD ∧ prev_value > ADS_THRESHOLD

instance (t : Bool) (c p : Int) : Decidable (rising_edge t c p) := by
  unfold rising_edge; infer_instance

instance (t : Bool) (c p : Int) : Decidable (falling_edge t c p) := by
  unfold falling_edge; infer_instance

/-- One iteration of the `for` loop of `process_ads_triggers`, for loop variable
`ads_ch`, on the globals and the effects accumulated so far. -/
def ads_iteration (values : Fin 6 → Int) (acc : Globals × List Effect) (ads_ch : Fin 6) :
    Globals × List Effect :=
  let g := acc.1
  let faust_ch : Int := 6 - (ads_ch.val : Int)
  if faust_ch < 0 ∨ faust_ch ≥ NUM_CHANNELS then
    acc
  else
    let current_value := values ads_ch
    let prev_value := g.prev_ads_values ads_ch
    let r : Globals × List Effect :=
      if rising_edge (g.ads_triggered ads_ch) current_value prev_value then
        ({ g with ads_triggered := Function.update g.ads_triggered ads_ch true },
         set_channel_trigger g faust_ch 1
           ++ [Effect.printf_triggered ((ads_ch.val : Int) + 1) faust_ch current_value])
      else if falling_edge (g.ads_triggered ads_ch) current_value prev_value then
        ({ g with ads_triggered := Function.update g.ads_triggered ads_ch false },
         set_channel_trigger g faust_ch 0
           ++ [Effect.printf_released ((ads_ch.val : Int) + 1) faust_ch current_value])
      else
        (g, [])
    ({ r.1 with prev_ads_values := Function.update r.1.prev_ads_values ads_ch current_value },
     acc.2 ++ r.2)

/-- The function `process_ads_triggers(t, values)`: the loop over `ads_ch = 0 .. 5`.
Returns the globals after the call and the effects of the call. -/
def process_ads_triggers (g : Globals) (values : Fin 6 → Int) : Globals × List Effect :=
  (List.finRange 6).foldl (ads_iteration values) (g, [])

/-! ## ads1115_reader.c -/

/-- The constant `DEFAULT_ADS1115_ADDRESS`. -/
def DEFAULT_ADS1115_ADDRESS : Int := 0x48

def ADS1115_CONFIG_OS_SINGLE : Nat := 0x8000
def ADS1115_CONFIG_MUX_SINGLE : Nat := 0x4000
def ADS1115_CONFIG_MODE_SINGLE : Nat := 0x0100
def ADS1115_CONFIG_DR_860SPS : Nat := 0x00E0
def ADS1115_CONFIG_CQUE_NONE : Nat := 0x0003

/-- The constant `CLOCKS_PER_SEC` of `<time.h>`, which POSIX fixes at one million. -/
def CLOCKS_PER_SEC : Int := 1000000

/-- The conversion of an `int` value to `int16_t` (reduction modulo 2^16 into the signed
range), written for a non-negative operand. -/
def toInt16 (n : Nat) : Int :=
  if n % 65536 < 32768 then ((n % 65536 : Nat) : Int) else ((n % 65536 : Nat) : Int) - 65536

/-- The system calls the reader makes, as functions of a bus state `σ`: each returns the
state after the call and what the call returned. -/
structure I2C (σ : Type) where
  /-- The call `ioctl(file, I2C_SLAVE, addr)`. -/
  ioctl : σ → Int → Int → σ × Int
  /-- The call `write(file, buf, len)` for the bytes of `buf`; returns the count or -1. -/
  write : σ → Int → List Nat → σ × Int
  /-- The call `read(file, buf, n)`; returns the count (or -1) and the bytes of `buf`. -/
  read : σ → Int → Nat → σ × Int × List Nat
  /-- The call `clock()`. -/
  clock : σ → σ × Int
  /-- The call `usleep(usec)`. -/
  usleep : σ → Nat → σ
  /-- The call `close(file)`. -/
  close : σ → Int → σ

/-- The calls and messages of the reader, in the order they are made. -/
inductive Call
  | ioctl (file addr : Int)
  | write (file : Int) (bytes : List Nat)
  | read (file : Int) (n : Nat)
  | clock
  | usleep (usec : Nat)
  | close (file : Int)
  /-- The line "Invalid channel. Must be between 0 and 7. Reading from channel 0". -/
  | printf_invalid_channel
  /-- The line "Failed to communicate with device at address ..." with its address. -/
  | printf_failed_device (addr : Int)
  /-- The line "Ending communication i2c device". -/
  | printf_ending
  | perror (msg : String)
  deriving DecidableEq, Repr

/-- The outcome of a reader function: bus state, calls made, value returned. -/
structure Out (σ : Type) (α : Type) where
  state : σ
  trace : List Call
  ret : α

/-- The function `ADS1115_exit(file)`. -/
def ADS1115_exit {σ : Type} (io : I2C σ) (file : Int) (s : σ) : Out σ Int :=
  { state := io.close s file, trace := [Call.printf_ending, Call.close file], ret := 0 }

/-- Lines 42-50 of `ADS1115_start_reading`: the local channel, the device address and the
line printed, for the argument `channel`. -/
def ADS1115_start_reading_select (channel : Int) : Int × Int × List Call :=
  let addr := DEFAULT_ADS1115_ADDRESS
  if channel < 0 ∨ channel > 7 then (0, addr, [Call.printf_invalid_channel])
  else if channel > 3 then (channel - 4, addr + 1, [])
  else (channel, addr, [])

/-- The function `ADS1115_start_reading(channel, file)`. The shift `channel << 12` is
taken on `channel.toNat`: the local channel is never negative here. -/
def ADS1115_start_reading {σ : Type} (io : I2C σ) (channel file : Int) (s : σ) : Out σ Int :=
  let sel := ADS1115_start_reading_select channel
  let channel := sel.1
  let addr := sel.2.1
  let r := io.ioctl s file addr
  if r.2 < 0 then
    { state := r.1
      trace := sel.2.2 ++ [Call.ioctl file addr, Call.printf_failed_device addr, Call.perror "\n"]
      ret := 1 }
  else
    let config_value : Nat :=
      (ADS1115_CONFIG_OS_SINGLE ||| ADS1115_CONFIG_MUX_SINGLE ||| ADS1115_CONFIG_MODE_SINGLE
        ||| ADS1115_CONFIG_DR_860SPS ||| ADS1115_CONFIG_CQUE_NONE
        ||| (channel.toNat <<< 12)) % 65536
    let config : List Nat := [1, (config_value >>> 8) % 256, (config_value &&& 0xFF) % 256]
    let w := io.write r.1 file config
    if w.2 ≠ 3 then
      let e := ADS1115_exit io file w.1
      { state := e.state
        trace := sel.2.2 ++ [Call.ioctl file addr, Call.write file config,
                   Call.perror "Failed to write to the i2c device"] ++ e.trace
        ret := 1 }
    else
      { state := w.1
        trace := sel.2.2 ++ [Call.ioctl file addr, Call.write file config]
        ret := 0 }

/-- Lines 134-142 and 225-233: the expression `(data[0] << 8) | data[1]` on two bytes,
converted to `int16_t`. -/
def sample_of_bytes (data0 data1 : Nat) : Int :=
  toInt16 (((data0 % 256) <<< 8) ||| (data1 % 256))

/-- How a polling loop ends: `ready` is the `break`, `failed` a `return -1` inside the
loop, `out_of_fuel` that the loop was still running when the fuel ran out. -/
inductive Poll
  | ready
  | failed
  | out_of_fuel
  deriving DecidableEq, Repr

/-- The `while (1)` loop of `ADS1115_get_result` (lines 98-125), run for at most `fuel`
iterations. -/
def ADS1115_get_result_poll {σ : Type} (io : I2C σ) (file start_time : Int) :
    Nat → σ → Out σ Poll
  | 0, s => { state := s, trace := [], ret := Poll.out_of_fuel }
  | fuel + 1, s =>
    let w := io.write s file [1]
    if w.2 ≠ 1 then
      { state := w.1
        trace := [Call.write file [1], Call.perror "Failed to set config register pointer"]
        ret := Poll.failed }
    else
      let r := io.read w.1 file 2
      if r.2.1 ≠ 2 then
        { state := r.1
          trace := [Call.write file [1], Call.read file 2, Call.perror "Config read failed"]
          ret := Poll.failed }
      else if (r.2.2.getD 0 0 % 256) &&& 0x80 ≠ 0 then
        { state := r.1, trace := [Call.write file [1], Call.read file 2], ret := Poll.ready }
      else
        let c := io.clock r.1
        if Int.tdiv ((c.2 - start_time) * 1000) CLOCKS_PER_SEC > 100 then
          { state := c.1
            trace := [Call.write file [1], Call.read file 2, Call.clock,
                      Call.perror "Timeout waiting for conversion"]
            ret := Poll.failed }
        else
          let rest := ADS1115_get_result_poll io file start_time fuel (io.usleep c.1 100)
          { rest with
            trace := [Call.write file [1], Call.read file 2, Call.clock, Call.usleep 100]
                       ++ rest.trace }

/-- Lines 127-146 (and 218-237): point to the conversion register, read two bytes and
compose the sample. -/
def read_conversion {σ : Type} (io : I2C σ) (file : Int) (s : σ) : Out σ Int :=
  let w := io.write s file [0]
  if w.2 ≠ 1 then
    { state := io.close w.1 file
      trace := [Call.write file [0], Call.perror "Failed to set register pointer",
                Call.close file]
      ret := -1 }
  else
    let r := io.read w.1 file 2
    if r.2.1 ≠ 2 then
      { state := io.close r.1 file
        trace := [Call.write file [0], Call.read file 2,
                  Call.perror "Failed to read from the i2c device", Call.close file]
        ret := -1 }
    else
      { state := r.1
        trace := [Call.write file [0], Call.read file 2]
        ret := sample_of_bytes (r.2.2.getD 0 0) (r.2.2.getD 1 0) }

/-- Lines 81-89 of `ADS1115_get_result`: local channel, device address, line printed. -/
def ADS1115_get_result_select (channel : Int) : Int × Int × List Call :=
  let addr := DEFAULT_ADS1115_ADDRESS
  if channel < 0 ∨ channel > 7 then (0, addr, [Call.printf_invalid_channel])
  else if channel > 3 then (channel - 4, addr + 1, [])
  else (channel, addr, [])

/-- The function `ADS1115_get_result(channel, file)`, its polling loop bounded by `fuel`
iterations; `ret = none` when the loop was still running when the fuel ran out. -/
def ADS1115_get_result {σ : Type} (io : I2C σ) (fuel : Nat) (channel file : Int) (s : σ) :
    Out σ (Option Int) :=
  let sel := ADS1115_get_result_select channel
  let addr := sel.2.1
  let r := io.ioctl s file addr
  if r.2 < 0 then
    { state := r.1
      trace := sel.2.2 ++ [Call.ioctl file addr, Call.printf_failed_device addr, Call.perror "\n"]
      ret := some 1 }
  else
    let c := io.clock r.1
    let p := ADS1115_get_result_poll io file c.2 fuel c.1
    match p.ret with
    | Poll.out_of_fuel =>
      { state := p.state
        trace := sel.2.2 ++ [Call.ioctl file addr, Call.clock] ++ p.trace
        ret := none }
    | Poll.failed =>
      { state := p.state
        trace := sel.2.2 ++ [Call.ioctl file addr, Call.clock] ++ p.trace
        ret := some (-1) }
    | Poll.ready =>
      let v := read_conversion io file p.state
      { state := v.state
        trace := sel.2.2 ++ [Call.ioctl file addr, Call.clock] ++ p.trace ++ v.trace
        ret := some v.ret }

/-- The `while (1)` loop of `ADS1115_read` (lines 190-216), run for at most `fuel`
iterations; unlike the loop of `ADS1115_get_result` it does not sleep. -/
def ADS1115_read_poll {σ : Type} (io : I2C σ) (file start_time : Int) :
    Nat → σ → Out σ Poll
  | 0, s => { state := s, trace := [], ret := Poll.out_of_fuel }
  | fuel + 1, s =>
    let w := io.write s file [1]
    if w.2 ≠ 1 then
      { state := w.1
        trace := [Call.write file [1], Call.perror "Failed to set config register pointer"]
        ret := Poll.failed }
    else
      let r := io.read w.1 file 2
      if r.2.1 ≠ 2 then
        { state := r.1
          trace := [Call.write file [1], Call.read file 2, Call.perror "Config read failed"]
          ret := Poll.failed }
      else if (r.2.2.getD 0 0 % 256) &&& 0x80 ≠ 0 then
        { state := r.1, trace := [Call.write file [1], Call.read file 2], ret := Poll.ready }
      else
        let c := io.clock r.1
        if Int.tdiv ((c.2 - start_time) * 1000) CLOCKS_PER_SEC > 100 then
          { state := c.1
            trace := [Call.write file [1], Call.read file 2, Call.clock,
                      Call.perror "Timeout waiting for conversion"]
            ret := Poll.failed }
        else
          let rest := ADS1115_read_poll io file start_time fuel c.1
          { rest with
            trace := [Call.write file [1], Call.read file 2, Call.clock] ++ rest.trace }

/-- Lines 153-161 of `ADS1115_read`: local channel, device address, line printed. -/
def ADS1115_read_select (channel : Int) : Int × Int × List Call :=
  let addr := DEFAULT_ADS1115_ADDRESS
  if channel < 0 ∨ channel > 7 then (0, addr, [Call.printf_invalid_channel])
  else if channel > 3 then (channel - 4, addr + 1, [])
  else (channel, addr, [])

/-- The function `ADS1115_read(channel, file)`, its polling loop bounded by `fuel`
iterations; `ret = none` when the loop was still running when the fuel ran out. -/
def ADS1115_read {σ : Type} (io : I2C σ) (fuel : Nat) (channel file : Int) (s : σ) :
    Out σ (Option Int) :=
  let sel := ADS1115_read_select channel
  let channel := sel.1
  let addr := sel.2.1
  let r := io.ioctl s file addr
  if r.2 < 0 then
    { state := r.1
      trace := sel.2.2 ++ [Call.ioctl file addr, Call.printf_failed_device addr, Call.perror "\n"]
      ret := some (-1) }
  else
    let config_value : Nat :=
      (ADS1115_CONFIG_OS_SINGLE ||| ADS1115_CONFIG_MUX_SINGLE ||| ADS1115_CONFIG_MODE_SINGLE
        ||| ADS1115_CONFIG_DR_860SPS ||| ADS1115_CONFIG_CQUE_NONE
        ||| (channel.toNat <<< 12)) % 65536
    let config : List Nat := [1, (config_value >>> 8) % 256, (config_value &&& 0xFF) % 256]
    let w := io.write r.1 file config
    if w.2 ≠ 3 then
      let e := ADS1115_exit io file w.1
      { state := e.state
        trace := sel.2.2 ++ [Call.ioctl file addr, Call.write file config,
                   Call.perror "Failed to write to the i2c device"] ++ e.trace
        ret := some (-1) }
    else
      let c := io.clock w.1
      let p := ADS1115_read_poll io file c.2 fuel c.1
      let pre := sel.2.2 ++ [Call.ioctl file addr, Call.write file config, Call.clock]
      match p.ret with
      | Poll.out_of_fuel => { state := p.state, trace := pre ++ p.trace, ret := none }
      | Poll.failed => { state := p.state, trace := pre ++ p.trace, ret := some (-1) }
      | Poll.ready =>
        let v := read_conversion io file p.state
        { state := v.state, trace := pre ++ p.trace ++ v.trace, ret := some v.ret }

/-! ## The sampling loop of `main` -/

/-- One iteration of the sampling loop of `main` (lines 334-339) for loop variable `i`:
two conversions are started, two results are fetched into `values[i]` and
`values[i+3]`. The accumulator holds the bus state, the calls made so far and the array
`values`; `none` once a polling loop ran out of fuel. -/
def sample_iteration {σ : Type} (io : I2C σ) (fuel : Nat) (file : Int)
    (acc : Out σ (Option (Fin 6 → Int))) (i : Fin 3) : Out σ (Option (Fin 6 → Int)) :=
  match acc.ret with
  | none => acc
  | some values =>
    let a := ADS1115_start_reading io (i.val : Int) file acc.state
    let b := ADS1115_start_reading io ((i.val : Int) + 4) file a.state
    let c := ADS1115_get_result io fuel ((i.val : Int) + 1) file b.state
    match c.ret with
    | none =>
      { state := c.state, trace := acc.trace ++ a.trace ++ b.trace ++ c.trace, ret := none }
    | some v1 =>
      let d := ADS1115_get_result io fuel ((i.val : Int) + 5) file c.state
      match d.ret with
      | none =>
        { state := d.state
          trace := acc.trace ++ a.trace ++ b.trace ++ c.trace ++ d.trace
          ret := none }
      | some v2 =>
        { state := d.state
          trace := acc.trace ++ a.trace ++ b.trace ++ c.trace ++ d.trace
          ret := some (Function.update (Function.update values ⟨i.val, by omega⟩ v1)
                         ⟨i.val + 3, by omega⟩ v2) }

/-- The sampling loop of `main` (lines 334-339), `for (i = 0; i < 3; i++)`, started with
the array `values` holding `values0`. -/
def sample_values {σ : Type} (io : I2C σ) (fuel : Nat) (file : Int) (values0 : Fin 6 → Int)
    (s : σ) : Out σ (Option (Fin 6 → Int)) :=
  (List.finRange 3).foldl (sample_iteration io fuel file)
    { state := s, trace := [], ret := some values0 }

/-- Lines 334-341 of `main`: the sampling loop followed by
`process_ads_triggers(t, values)`. Returns the bus outcome and, unless a polling loop
ran out of fuel, the globals after the tick and the effects of the tick. -/
def sample_and_process {σ : Type} (io : I2C σ) (fuel : Nat) (file : Int)
    (values0 : Fin 6 → Int) (g : Globals) (s : σ) : Out σ (Option (Globals × List Effect)) :=
  let v := sample_values io fuel file values0 s
  { state := v.state, trace := v.trace, ret := v.ret.map (process_ads_triggers g) }

/-! ## A scripted bus

A small bus with one answering device, used to run the reader on concrete inputs. It
acknowledges every address, stores the register pointer written last, reports a
conversion as ready after `latency` reads of the config register, answers every read of
the conversion register with the bytes `hi`, `lo`, and advances its clock by `step`
ticks per `clock()` call. -/

/-- The state of the scripted bus. -/
structure Script where
  pointer : Nat
  busy : Nat
  latency : Nat
  hi : Nat
  lo : Nat
  now : Int
  step : Int
  deriving DecidableEq, Repr

/-- The scripted bus. -/
def script : I2C Script where
  ioctl := fun s _ _ => (s, 0)
  write := fun s _ bytes =>
    match bytes with
    | [p] => ({ s with pointer := p }, 1)
    | [p, _, _] => ({ s with pointer := p, busy := s.latency }, 3)
    | _ => (s, -1)
  read := fun s _ n =>
    if n ≠ 2 then (s, -1, [])
    else if s.pointer = 1 then
      (if s.busy = 0 then (s, 2, [0x80, 0]) else ({ s with busy := s.busy - 1 }, 2, [0, 0]))
    else (s, 2, [s.hi, s.lo])
  clock := fun s => ({ s with now := s.now + s.step }, s.now + s.step)
  usleep := fun s _ => s
  close := fun s _ => s

/-- A scripted bus whose device converts at once and answers `hi`, `lo`. -/
def answering (hi lo : Nat) : Script :=
  { pointer := 0, busy := 0, latency := 0, hi := hi, lo := lo, now := 0, step := 10 }

/-- A scripted bus whose device never reports a finished conversion, with a clock that
advances 50 ms per call. -/
def silent : Script :=
  { pointer := 0, busy := 1000, latency := 1000, hi := 0, lo := 0, now := 0, step := 50000 }

/-- The array `values` given by its six cells. -/
def values_of (l : List Int) : Fin 6 → Int := fun i => l.getD i.val 0


/-! ## Observations on the effects of `process_ads_triggers` -/

/-- The flag written by one iteration. -/
def next_flag (triggered : Bool) (current_value prev_value : Int) : Bool :=
  if rising_edge triggered current_value prev_value then true
  else if falling_edge triggered current_value prev_value then false
  else triggered

/-- The effects of one iteration for a channel that is not skipped. -/
def iteration_effects (g : Globals) (values : Fin 6 → Int) (ads_ch : Fin 6) : List Effect :=
  if rising_edge (g.ads_triggered ads_ch) (values ads_ch) (g.prev_ads_values ads_ch) then
    set_channel_trigger g (6 - (ads_ch.val : Int)) 1
      ++ [Effect.printf_triggered ((ads_ch.val : Int) + 1) (6 - (ads_ch.val : Int)) (values ads_ch)]
  else if falling_edge (g.ads_triggered ads_ch) (values ads_ch) (g.prev_ads_values ads_ch) then
    set_channel_trigger g (6 - (ads_ch.val : Int)) 0
      ++ [Effect.printf_released ((ads_ch.val : Int) + 1) (6 - (ads_ch.val : Int)) (values ads_ch)]
  else []

/-- The two events of the edge detector. -/
inductive Edge
  | Trigger
  | Release
  deriving DecidableEq, Repr

/-- The events that a call of `process_ads_triggers` emitted for ADS channel `ch`, read
off the effects of the call: a Trigger is a message with argument 1 directly followed by
the line "ADS ch(ch+1) triggered", a Release a message with argument 0 directly followed
by the line "ADS ch(ch+1) released". -/
def edges_of (ch : Fin 6) : List Effect → List Edge
  | [] => []
  | e :: rest =>
    match e, rest with
    | Effect.lo_send _ v, Effect.printf_triggered a _ _ :: _ =>
      if a = (ch.val : Int) + 1 ∧ v = 1 then Edge.Trigger :: edges_of ch rest
      else edges_of ch rest
    | Effect.lo_send _ v, Effect.printf_released a _ _ :: _ =>
      if a = (ch.val : Int) + 1 ∧ v = 0 then Edge.Release :: edges_of ch rest
      else edges_of ch rest
    | _, _ => edges_of ch rest

/-- The effects of successive calls of `process_ads_triggers`, one list per call, from
the globals `g`. -/
def successive_calls (g : Globals) : List (Fin 6 → Int) → List (List Effect)
  | [] => []
  | v :: vs => (process_ads_triggers g v).2 :: successive_calls (process_ads_triggers g v).1 vs

/-- The events expected of one channel from its stored sample `p` and the samples of the
successive calls, by the two sample comparisons alone: a Trigger when the sample is
above 500 and the one before was not, a Release when the sample is not above 500 and the
one before was. -/
def expected_edges : Int → List Int → List (List Edge)
  | _, [] => []
  | p, s :: rest =>
    (if s > 500 ∧ p ≤ 500 then [Edge.Trigger]
     else if s ≤ 500 ∧ p > 500 then [Edge.Release]
     else []) :: expected_edges s rest

/-! ## Observations on the polling loops -/

/-- A stretch of a polling loop in which the device is never ready, on the bus `io` from
the state `s`: each of the next `n + 1` polls sets the register pointer and reads two
bytes whose first has the ready bit 0x80 clear; the clock reading taken in each of the
first `n` polls is not more than 100 whole milliseconds after `start_time`, and the one
taken in the last poll is. `between` is what the loop does between two polls. -/
def never_ready {σ : Type} (io : I2C σ) (file start_time : Int) (between : σ → σ) :
    Nat → σ → Prop
  | 0, s =>
    (io.write s file [1]).2 = 1
    ∧ (io.read (io.write s file [1]).1 file 2).2.1 = 2
    ∧ ((io.read (io.write s file [1]).1 file 2).2.2.getD 0 0 % 256) &&& 0x80 = 0
    ∧ Int.tdiv (((io.clock (io.read (io.write s file [1]).1 file 2).1).2 - start_time) * 1000)
        CLOCKS_PER_SEC > 100
  | n + 1, s =>
    (io.write s file [1]).2 = 1
    ∧ (io.read (io.write s file [1]).1 file 2).2.1 = 2
    ∧ ((io.read (io.write s file [1]).1 file 2).2.2.getD 0 0 % 256) &&& 0x80 = 0
    ∧ ¬ Int.tdiv (((io.clock (io.read (io.write s file [1]).1 file 2).1).2 - start_time) * 1000)
        CLOCKS_PER_SEC > 100
    ∧ never_ready io file start_time between n
        (between (io.clock (io.read (io.write s file [1]).1 file 2).1).1)

instance never_ready_decidable {σ : Type} (io : I2C σ) (file start_time : Int)
    (between : σ → σ) : (n : Nat) → (s : σ) → Decidable (never_ready io file start_time between n s)
  | 0, s => by
    unfold never_ready
    infer_instance
  | n + 1, s => by
    unfold never_ready
    have := never_ready_decidable io file start_time between n
      (between (io.clock (io.read (io.write s file [1]).1 file 2).1).1)
    infer_instance

/-- The calls of `n` polls of `ADS1115_get_result` that neither end nor time out. -/
def get_result_waiting (file : Int) : Nat → List Call
  | 0 => []
  | n + 1 =>
    [Call.write file [1], Call.read file 2, Call.clock, Call.usleep 100]
      ++ get_result_waiting file n

/-- The calls of `n` polls of `ADS1115_read` that neither end nor time out. -/
def read_waiting (file : Int) : Nat → List Call
  | 0 => []
  | n + 1 => [Call.write file [1], Call.read file 2, Call.clock] ++ read_waiting file n

/-- The three bytes that `ADS1115_start_reading` and `ADS1115_read` write for the local
channel `channel` (lines 58-67 and 169-178): register id 1 and the configuration word,
high byte first. -/
def config_bytes (channel : Int) : List Nat :=
  [1,
   (((ADS1115_CONFIG_OS_SINGLE ||| ADS1115_CONFIG_MUX_SINGLE ||| ADS1115_CONFIG_MODE_SINGLE
        ||| ADS1115_CONFIG_DR_860SPS ||| ADS1115_CONFIG_CQUE_NONE
        ||| (channel.toNat <<< 12)) % 65536) >>> 8) % 256,
   (((ADS1115_CONFIG_OS_SINGLE ||| ADS1115_CONFIG_MUX_SINGLE ||| ADS1115_CONFIG_MODE_SINGLE
        ||| ADS1115_CONFIG_DR_860SPS ||| ADS1115_CONFIG_CQUE_NONE
        ||| (channel.toNat <<< 12)) % 65536) &&& 0xFF) % 256]

/-- A bus whose clock advances: `time` measures the processor time of a bus state, a
call of `clock()` returns a reading later than the time of the state it is made in, and
no call sets the time back. -/
structure advancing_clock {σ : Type} (io : I2C σ) (time : σ → Int) : Prop where
  clock_later : ∀ s, time s < (io.clock s).2
  clock_kept : ∀ s, (io.clock s).2 ≤ time (io.clock s).1
  ioctl_mono : ∀ s f a, time s ≤ time (io.ioctl s f a).1
  write_mono : ∀ s f b, time s ≤ time (io.write s f b).1
  read_mono : ∀ s f n, time s ≤ time (io.read s f n).1
  usleep_mono : ∀ s u, time s ≤ time (io.usleep s u)
  close_mono : ∀ s f, time s ≤ time (io.close s f)

/-- A bus whose state is its clock: every call succeeds, every two-byte read answers
0x80, 0x00, and each `clock()` call advances the clock by one tick. -/
def ticking : I2C Int where
  ioctl := fun s _ _ => (s, 0)
  write := fun s _ bytes => (s, (bytes.length : Int))
  read := fun s _ n => (s, (n : Int), [0x80, 0])
  clock := fun s => (s + 1, s + 1)
  usleep := fun s _ => s
  close := fun s _ => s

/-- The two operations of the sampling loop as they show on the bus. -/
inductive Op
  /-- A conversion is started for a logical channel. -/
  | start (channel : Int)
  /-- A result is fetched from the device at an address. -/
  | fetch (addr : Int)
  deriving DecidableEq, Repr

/-- The operations read off the calls made on the bus: a device select directly followed
by the write of register id 1 with a configuration word starts a conversion, for the
logical channel given by the device (four channels per address from the base address)
and the two low bits of the multiplexer field (bits 5-4 of the high byte); a device
select directly followed by a clock reading opens the polling of
`ADS1115_get_result`. -/
def ops_of : List Call → List Op
  | [] => []
  | e :: rest =>
    match e, rest with
    | Call.ioctl _ addr, Call.write _ [1, hi, _] :: _ =>
      Op.start (4 * (addr - DEFAULT_ADS1115_ADDRESS) + (((hi >>> 4) &&& 3 : Nat) : Int))
        :: ops_of rest
    | Call.ioctl _ addr, Call.clock :: _ => Op.fetch addr :: ops_of rest
    | _, _ => ops_of rest

/-! ## Observations on series of calls of `process_ads_triggers` -/

/-- The globals after successive calls of `process_ads_triggers`, from the globals `g`. -/
def globals_after (g : Globals) : List (Fin 6 → Int) → Globals
  | [] => g
  | v :: vs => globals_after (process_ads_triggers g v).1 vs

/-- The first `n` terms of the series Trigger, Release, Trigger, ... when `released_next`
is false, and of the series Release, Trigger, Release, ... when it is true. -/
def alternation : Bool → Nat → List Edge
  | _, 0 => []
  | released_next, n + 1 =>
    (if released_next then Edge.Release else Edge.Trigger) :: alternation (!released_next) n

/-! ## main.c: the key handler -/

/-- The constant `EV_KEY` of `<linux/input.h>`. -/
def EV_KEY : Int := 1

/-- The key codes of `<linux/input.h>` used by `process_keyev`. -/
def KEY_ESC : Int := 1
def KEY_ENTER : Int := 28
def KEY_UP : Int := 103
def KEY_LEFT : Int := 105
def KEY_RIGHT : Int := 106
def KEY_DOWN : Int := 108

/-- The fields of `struct input_event` that `process_keyev` examines. -/
structure input_event where
  type : Int
  code : Int
  value : Int
  deriving DecidableEq, Repr

/-- The static variables `current_panel_index`, `triggered_channel` and
`current_screen` of main.c. -/
structure KeyState where
  current_panel_index : Int
  triggered_channel : Int
  current_screen : Int
  deriving DecidableEq, Repr

/-- The initialisers of the three static variables. -/
def key_state_at_load : KeyState :=
  { current_panel_index := 0, triggered_channel := 6, current_screen := 0 }

/-- What the key handler does to the outside: the effects of the functions of main.c it
calls, and its calls into the graphics library. -/
inductive UiEffect
  | of_main (e : Effect)
  /-- The line "Error: Panel %d out of bounds" of `get_panel`. -/
  | printf_panel_out_of_bounds (index : Nat)
  /-- The call `lv_obj_set_style_border_color(panel, color, ...)`, with the panel as its
  index in `panels` (none for NULL) and the colour as its hex value. -/
  | lv_obj_set_style_border_color (panel : Option Nat) (color : Nat)
  /-- The call `lv_screen_load(ui_Screen1)` or `lv_screen_load(ui_Screen2)`. -/
  | lv_screen_load (screen : Nat)
  /-- The call `lv_roller_set_selected(ui_Roller1, selected, LV_ANIM_OFF)`. -/
  | lv_roller_set_selected (selected : Int)
  deriving DecidableEq, Repr

/-- The value of a C comparison: 1 when it holds, 0 otherwise. -/
def c_bool (p : Prop) [Decidable p] : Int := if p then 1 else 0

/-- The function `get_panel(index)` for the `int` argument `index`, converted to
`uint8_t`: the panel as its index in `panels`, and the line printed when the index is
out of bounds. The panel objects are taken as created (`ui_init` has run). -/
def get_panel (index : Int) : Option Nat × List UiEffect :=
  if (index % 256).toNat ≥ 6 then
    (none, [UiEffect.printf_panel_out_of_bounds (index % 256).toNat])
  else (some (index % 256).toNat, [])

/-- The read `channel_mapping[index]` for an `int` index; outside the array (undefined
behaviour in C) the embedding yields 0. -/
def channel_mapping_at (g : Globals) (index : Int) : Int :=
  if h : 0 ≤ index ∧ index < 6 then g.channel_mapping (index6 index h.1 h.2) else 0

/-- The new panel index of line 220 (KEY_UP). -/
def panel_up (i : Int) : Int := (i - 3) + 6 * c_bool (i < 3)

/-- The new panel index of line 225 (KEY_DOWN). -/
def panel_down (i : Int) : Int := (i + 3) - 6 * c_bool (i ≥ 3)

/-- The new panel index of line 230 (KEY_LEFT); `%` is the C remainder. -/
def panel_left (i : Int) : Int := (i - 1) + 3 * c_bool (Int.tmod i 3 = 0)

/-- The new panel index of line 235 (KEY_RIGHT); `%` is the C remainder. -/
def panel_right (i : Int) : Int := (i + 1) - 3 * c_bool (Int.tmod i 3 = 2)

/-- The body of the four arrow cases on the panel screen: the border of the current
panel is coloured, the index is replaced, the border of the new panel is made black. -/
def move_panel (g : Globals) (k : KeyState) (new_index : Int) :
    Globals × KeyState × List UiEffect :=
  (g, { k with current_panel_index := new_index },
   (get_panel k.current_panel_index).2
     ++ [UiEffect.lv_obj_set_style_border_color (get_panel k.current_panel_index).1 0x4ADFF3]
     ++ (get_panel new_index).2
     ++ [UiEffect.lv_obj_set_style_border_color (get_panel new_index).1 0])

/-- The function `process_keyev(file, t)`; `ev` is the event read from `file`, `none`
when the read did not return a complete event. -/
def process_keyev (g : Globals) (k : KeyState) (ev : Option input_event) :
    Globals × KeyState × List UiEffect :=
  match ev with
  | none => (g, k, [])
  | some ie =>
    if ie.type = EV_KEY then
      if ie.value = 1 then
        if k.current_screen = 0 then
          if ie.code = KEY_UP then move_panel g k (panel_up k.current_panel_index)
          else if ie.code = KEY_DOWN then move_panel g k (panel_down k.current_panel_index)
          else if ie.code = KEY_LEFT then move_panel g k (panel_left k.current_panel_index)
          else if ie.code = KEY_RIGHT then move_panel g k (panel_right k.current_panel_index)
          else if ie.code = KEY_ENTER then
            (g, { k with current_screen := 1 },
             [UiEffect.lv_screen_load 2,
              UiEffect.lv_roller_set_selected (channel_mapping_at g k.current_panel_index)])
          else if ie.code = KEY_ESC then
            (g, { k with triggered_channel := k.current_panel_index },
             (set_channel_trigger g k.current_panel_index 1).map UiEffect.of_main)
          else (g, k, [])
        else
          if ie.code = KEY_UP then
            if channel_mapping_at g k.current_panel_index > 0 then
              ((set_channel_mapping g k.current_panel_index
                  (channel_mapping_at g k.current_panel_index - 1)).1, k,
               [UiEffect.lv_roller_set_selected (channel_mapping_at g k.current_panel_index - 1)]
                 ++ (set_channel_mapping g k.current_panel_index
                      (channel_mapping_at g k.current_panel_index - 1)).2.map UiEffect.of_main)
            else (g, k, [])
          else if ie.code = KEY_DOWN then
            if channel_mapping_at g k.current_panel_index < SOUND_COUNT - 1 then
              ((set_channel_mapping g k.current_panel_index
                  (channel_mapping_at g k.current_panel_index + 1)).1, k,
               [UiEffect.lv_roller_set_selected (channel_mapping_at g k.current_panel_index + 1)]
                 ++ (set_channel_mapping g k.current_panel_index
                      (channel_mapping_at g k.current_panel_index + 1)).2.map UiEffect.of_main)
            else (g, k, [])
          else if ie.code = KEY_LEFT then (g, k, [])
          else if ie.code = KEY_RIGHT then (g, k, [])
          else if ie.code = KEY_ENTER then
            (g, { k with current_screen := 0 }, [UiEffect.lv_screen_load 1])
          else if ie.code = KEY_ESC then
            (g, { k with triggered_channel := k.current_panel_index },
             (set_channel_trigger g k.current_panel_index 1).map UiEffect.of_main)
          else (g, k, [])
      else if ie.value = 0 ∧ ie.code = KEY_ESC then
        (g, k, (set_channel_trigger g k.triggered_channel 0).map UiEffect.of_main)
      else (g, k, [])
    else (g, k, [])

/-- The globals and the static variables after the key handler has handled the events
`evs` one after the other. -/
def after_key_events (g : Globals) (k : KeyState) : List (Option input_event) → Globals × KeyState
  | [] => (g, k)
  | ev :: evs =>
    after_key_events (process_keyev g k ev).1 (process_keyev g k ev).2.1 evs

/-- The event of a key press. -/
def key_press (code : Int) : Option input_event :=
  some { type := EV_KEY, code := code, value := 1 }

/-! ## Lemmas on `process_ads_triggers` -/

theorem finRange_six : List.finRange 6 = [0, 1, 2, 3, 4, 5] := by decide

theorem ads_iteration_zero (values : Fin 6 → Int) (acc : Globals × List Effect) :
    ads_iteration values acc 0 = acc := by
  simp [ads_iteration, NUM_CHANNELS]

theorem ads_iteration_pos (values : Fin 6 → Int) (acc : Globals × List Effect) (ch : Fin 6)
    (h : ch ≠ 0) :
    ads_iteration values acc ch =
      ({ channel_mapping := acc.1.channel_mapping
         prev_ads_values := Function.update acc.1.prev_ads_values ch (values ch)
         ads_triggered := Function.update acc.1.ads_triggered ch
           (next_flag (acc.1.ads_triggered ch) (values ch) (acc.1.prev_ads_values ch)) },
       acc.2 ++ iteration_effects acc.1 values ch) := by
  have h1 : ¬ ((6 : Int) - (ch.val : Int) < 0 ∨ (6 : Int) - (ch.val : Int) ≥ NUM_CHANNELS) := by
    have : ch.val ≠ 0 := fun e => h (Fin.ext e)
    have := ch.isLt
    unfold NUM_CHANNELS
    omega
  unfold ads_iteration
  simp only [h1, if_false]
  unfold next_flag iteration_effects
  by_cases hr : rising_edge (acc.1.ads_triggered ch) (values ch) (acc.1.prev_ads_values ch)
  · simp [hr]
  · by_cases hf : falling_edge (acc.1.ads_triggered ch) (values ch) (acc.1.prev_ads_values ch)
    · simp [hr, hf]
    · simp [hr, hf]

theorem set_channel_trigger_congr (g1 g2 : Globals) (h : g1.channel_mapping = g2.channel_mapping)
    (c : Int) (x : ℚ) : set_channel_trigger g1 c x = set_channel_trigger g2 c x := by
  unfold set_channel_trigger
  simp only [h]

theorem process_unfold (g : Globals) (values : Fin 6 → Int) :
    process_ads_triggers g values =
      ads_iteration values (ads_iteration values (ads_iteration values (ads_iteration values
        (ads_iteration values (g, []) 1) 2) 3) 4) 5 := by
  unfold process_ads_triggers
  rw [finRange_six]
  simp only [List.foldl, ads_iteration_zero]

theorem process_channel_mapping (g : Globals) (values : Fin 6 → Int) :
    (process_ads_triggers g values).1.channel_mapping = g.channel_mapping := by
  rw [process_unfold]
  simp only [ads_iteration_pos _ _ (1 : Fin 6) (by decide), ads_iteration_pos _ _ (2 : Fin 6) (by decide),
    ads_iteration_pos _ _ (3 : Fin 6) (by decide), ads_iteration_pos _ _ (4 : Fin 6) (by decide),
    ads_iteration_pos _ _ (5 : Fin 6) (by decide)]

theorem process_prev (g : Globals) (values : Fin 6 → Int) (ch : Fin 6) :
    (process_ads_triggers g values).1.prev_ads_values ch =
      if ch = 0 then g.prev_ads_values 0 else values ch := by
  rw [process_unfold]
  simp only [ads_iteration_pos _ _ (1 : Fin 6) (by decide), ads_iteration_pos _ _ (2 : Fin 6) (by decide),
    ads_iteration_pos _ _ (3 : Fin 6) (by decide), ads_iteration_pos _ _ (4 : Fin 6) (by decide),
    ads_iteration_pos _ _ (5 : Fin 6) (by decide)]
  fin_cases ch <;> simp [Function.update]

theorem process_flag (g : Globals) (values : Fin 6 → Int) (ch : Fin 6) :
    (process_ads_triggers g values).1.ads_triggered ch =
      if ch = 0 then g.ads_triggered 0
      else next_flag (g.ads_triggered ch) (values ch) (g.prev_ads_values ch) := by
  rw [process_unfold]
  simp only [ads_iteration_pos _ _ (1 : Fin 6) (by decide), ads_iteration_pos _ _ (2 : Fin 6) (by decide),
    ads_iteration_pos _ _ (3 : Fin 6) (by decide), ads_iteration_pos _ _ (4 : Fin 6) (by decide),
    ads_iteration_pos _ _ (5 : Fin 6) (by decide)]
  fin_cases ch <;> simp [Function.update]

theorem process_effects (g : Globals) (values : Fin 6 → Int) :
    (process_ads_triggers g values).2 =
      iteration_effects g values 1 ++ iteration_effects g values 2 ++ iteration_effects g values 3
        ++ iteration_effects g values 4 ++ iteration_effects g values 5 := by
  rw [process_unfold]
  simp only [ads_iteration_pos _ _ (1 : Fin 6) (by decide), ads_iteration_pos _ _ (2 : Fin 6) (by decide),
    ads_iteration_pos _ _ (3 : Fin 6) (by decide), ads_iteration_pos _ _ (4 : Fin 6) (by decide),
    ads_iteration_pos _ _ (5 : Fin 6) (by decide), List.nil_append]
  rfl

theorem set_channel_trigger_faust (g : Globals) (i : Fin 6) (hi : i ≠ 0) (x : ℚ) :
    ∃ path, set_channel_trigger g (6 - (i.val : Int)) x = [Effect.lo_send path x] := by
  have hv : i.val ≠ 0 := fun e => hi (Fin.ext e)
  have hlt := i.isLt
  have h : ¬ ((6 : Int) - (i.val : Int) < 0 ∨ (6 : Int) - (i.val : Int) ≥ NUM_CHANNELS) := by
    unfold NUM_CHANNELS
    omega
  unfold set_channel_trigger
  rw [dif_neg h]
  exact ⟨_, rfl⟩

theorem edges_of_iteration_append (ch i : Fin 6) (hi : i ≠ 0) (g : Globals)
    (values : Fin 6 → Int) (rest : List Effect) :
    edges_of ch (iteration_effects g values i ++ rest) =
      (if i = ch then
        (if rising_edge (g.ads_triggered i) (values i) (g.prev_ads_values i) then [Edge.Trigger]
         else if falling_edge (g.ads_triggered i) (values i) (g.prev_ads_values i) then
           [Edge.Release]
         else [])
       else []) ++ edges_of ch rest := by
  have hiff : ((i.val : Int) + 1 = (ch.val : Int) + 1) ↔ i = ch := by
    constructor
    · intro h
      apply Fin.ext
      omega
    · intro h
      rw [h]
  obtain ⟨p1, h1⟩ := set_channel_trigger_faust g i hi 1
  obtain ⟨p0, h0⟩ := set_channel_trigger_faust g i hi 0
  unfold iteration_effects
  rw [h1, h0]
  by_cases hr : rising_edge (g.ads_triggered i) (values i) (g.prev_ads_values i)
  · by_cases hic : i = ch
    · subst hic
      simp [hr, edges_of]
    · simp [hr, edges_of, hic, hiff]
  · by_cases hf : falling_edge (g.ads_triggered i) (values i) (g.prev_ads_values i)
    · by_cases hic : i = ch
      · subst hic
        simp [hr, hf, edges_of]
      · simp [hr, hf, edges_of, hic, hiff]
    · simp [hr, hf]

/-- The events of one call for a channel other than 0, from the state at the call. -/
theorem edges_of_process (ch : Fin 6) (hch : ch ≠ 0) (g : Globals) (values : Fin 6 → Int) :
    edges_of ch (process_ads_triggers g values).2 =
      if rising_edge (g.ads_triggered ch) (values ch) (g.prev_ads_values ch) then [Edge.Trigger]
      else if falling_edge (g.ads_triggered ch) (values ch) (g.prev_ads_values ch) then
        [Edge.Release]
      else [] := by
  rw [process_effects]
  have e5 : iteration_effects g values 5 = iteration_effects g values 5 ++ [] := by simp
  rw [e5]
  simp only [List.append_assoc]
  rw [edges_of_iteration_append ch 1 (by decide), edges_of_iteration_append ch 2 (by decide),
    edges_of_iteration_append ch 3 (by decide), edges_of_iteration_append ch 4 (by decide),
    edges_of_iteration_append ch 5 (by decide)]
  have hcases : ch = 1 ∨ ch = 2 ∨ ch = 3 ∨ ch = 4 ∨ ch = 5 := by
    fin_cases ch
    · exact absurd rfl hch
    all_goals simp
  rcases hcases with rfl | rfl | rfl | rfl | rfl <;> simp [edges_of]

/-- The events expected from the previous and the current sample alone. -/
theorem edges_of_process_inv (ch : Fin 6) (hch : ch ≠ 0) (g : Globals) (values : Fin 6 → Int)
    (inv : g.ads_triggered ch = true ↔ g.prev_ads_values ch > 500) :
    edges_of ch (process_ads_triggers g values).2 =
      if values ch > 500 ∧ g.prev_ads_values ch ≤ 500 then [Edge.Trigger]
      else if values ch ≤ 500 ∧ g.prev_ads_values ch > 500 then [Edge.Release]
      else [] := by
  rw [edges_of_process ch hch]
  unfold rising_edge falling_edge ADS_THRESHOLD
  cases ht : g.ads_triggered ch
  · have hp : ¬ g.prev_ads_values ch > 500 := fun h => by
      have := inv.mpr h
      rw [ht] at this
      exact Bool.noConfusion this
    have hp2 : g.prev_ads_values ch ≤ 500 := by omega
    simp [hp, hp2]
  · have hp : g.prev_ads_values ch > 500 := inv.mp ht
    have hp2 : ¬ g.prev_ads_values ch ≤ 500 := by omega
    simp [hp, hp2]

/-- The flag follows the stored sample after every call. -/
theorem process_inv (ch : Fin 6) (g : Globals) (values : Fin 6 → Int)
    (inv : g.ads_triggered ch = true ↔ g.prev_ads_values ch > 500) :
    (process_ads_triggers g values).1.ads_triggered ch = true ↔
      (process_ads_triggers g values).1.prev_ads_values ch > 500 := by
  rw [process_flag, process_prev]
  by_cases h0 : ch = 0
  · subst h0
    simpa using inv
  · simp only [h0, if_false]
    unfold next_flag rising_edge falling_edge ADS_THRESHOLD
    cases ht : g.ads_triggered ch
    · have hp : ¬ g.prev_ads_values ch > 500 := fun h => by
        have := inv.mpr h
        rw [ht] at this
        exact Bool.noConfusion this
      have hp2 : g.prev_ads_values ch ≤ 500 := by omega
      by_cases hc : values ch > 500
      · simp [hc, hp2]
      · simp [hc, hp2]
    · have hp : g.prev_ads_values ch > 500 := inv.mp ht
      by_cases hc : values ch > 500
      · have : ¬ values ch ≤ 500 := by omega
        simp [hc, hp, this]
      · have : values ch ≤ 500 := by omega
        simp [hc, hp, this]

/-- The events of the `k`-th of a series of calls, from the samples `k - 1` and `k`. -/
theorem edges_of_successive_calls (ch : Fin 6) (hch : ch ≠ 0) (vs : List (Fin 6 → Int)) :
    ∀ (g : Globals), (g.ads_triggered ch = true ↔ g.prev_ads_values ch > 500) →
      ∀ (k : Nat) (hk : k < vs.length),
        edges_of ch ((successive_calls g vs).getD k []) =
          if vs.get ⟨k, hk⟩ ch > 500
              ∧ (if k = 0 then g.prev_ads_values ch else (vs.getD (k - 1) (fun _ => 0)) ch) ≤ 500
          then [Edge.Trigger]
          else if vs.get ⟨k, hk⟩ ch ≤ 500
              ∧ (if k = 0 then g.prev_ads_values ch else (vs.getD (k - 1) (fun _ => 0)) ch) > 500
          then [Edge.Release]
          else [] := by
  induction vs with
  | nil => intro g _ k hk; exact absurd hk (Nat.not_lt_zero k)
  | cons v vs ih =>
    intro g inv k hk
    cases k with
    | zero =>
      simp only [successive_calls, List.getD_cons_zero, List.get_cons_zero, if_true]
      exact edges_of_process_inv ch hch g v inv
    | succ k =>
      have hk2 : k < vs.length := by simpa using hk
      have ih2 := ih (process_ads_triggers g v).1 (process_inv ch g v inv) k hk2
      simp only [successive_calls, List.getD_cons_succ, List.get_cons_succ]
      rw [ih2, process_prev]
      simp only [hch, if_false, Nat.succ_ne_zero, Nat.add_sub_cancel]
      cases k with
      | zero => simp
      | succ j => simp


theorem successive_calls_edges (ch : Fin 6) (hch : ch ≠ 0) (vs : List (Fin 6 → Int)) :
    ∀ (g : Globals), (g.ads_triggered ch = true ↔ g.prev_ads_values ch > 500) →
      (successive_calls g vs).map (edges_of ch)
        = expected_edges (g.prev_ads_values ch) (vs.map (fun v => v ch)) := by
  induction vs with
  | nil => intro g _; rfl
  | cons v vs ih =>
    intro g inv
    simp only [successive_calls, List.map_cons, expected_edges]
    rw [ih _ (process_inv ch g v inv), edges_of_process_inv ch hch g v inv, process_prev]
    simp only [hch, if_false]

theorem edge_cases (l : List Edge) (T R : Prop) [Decidable T] [Decidable R] (hTR : T → ¬ R)
    (e : l = if T then [Edge.Trigger] else if R then [Edge.Release] else []) :
    (l = [Edge.Trigger] ↔ T) ∧ (l = [Edge.Release] ↔ R) ∧ (¬ T → ¬ R → l = []) := by
  by_cases hT : T
  · have hR : ¬ R := hTR hT
    rw [if_pos hT] at e
    subst e
    exact ⟨⟨fun _ => hT, fun _ => rfl⟩, ⟨fun h => (by cases h), fun h => absurd h hR⟩,
      fun h => absurd hT h⟩
  · by_cases hR : R
    · rw [if_neg hT, if_pos hR] at e
      subst e
      exact ⟨⟨fun h => (by cases h), fun h => absurd h hT⟩, ⟨fun _ => hR, fun _ => rfl⟩,
        fun _ h => absurd hR h⟩
    · rw [if_neg hT, if_neg hR] at e
      subst e
      exact ⟨⟨fun h => (by cases h), fun h => absurd h hT⟩,
        ⟨fun h => (by cases h), fun h => absurd h hR⟩, fun _ _ => rfl⟩

/-! ## The claims -/

/-- C1. Edge detection in `process_ads_triggers`: for an ADS channel `ch` whose detector
update runs (`ch` in 1..5) and any series `vs` of calls from the initial detector state
(previous samples 0, flags false, any channel/sound table), with `s_k` the sample of `ch`
in call `k` and `s_(k-1)` the one before (0 for the first call), call `k` emits exactly a
Trigger iff `s_k > 500` and `s_(k-1) <= 500`, exactly a Release iff `s_k <= 500` and
`s_(k-1) > 500`, and nothing otherwise. In particular samples 0, 600, 600, 400, 0 give
one Trigger, at the first 600, and one Release, at 400. -/
theorem process_ads_triggers_edge_detection (mapping : Fin 6 → Int) (ch : Fin 6) (hch : ch ≠ 0)
    (vs : List (Fin 6 → Int)) :
    (∀ (k : Nat) (hk : k < vs.length),
      (edges_of ch ((successive_calls (globals_at_load mapping) vs).getD k []) = [Edge.Trigger]
          ↔ vs.get ⟨k, hk⟩ ch > 500
              ∧ (if k = 0 then 0 else (vs.getD (k - 1) (fun _ => 0)) ch) ≤ 500)
      ∧ (edges_of ch ((successive_calls (globals_at_load mapping) vs).getD k []) = [Edge.Release]
          ↔ vs.get ⟨k, hk⟩ ch ≤ 500
              ∧ (if k = 0 then 0 else (vs.getD (k - 1) (fun _ => 0)) ch) > 500)
      ∧ (¬ (vs.get ⟨k, hk⟩ ch > 500
              ∧ (if k = 0 then 0 else (vs.getD (k - 1) (fun _ => 0)) ch) ≤ 500)
          → ¬ (vs.get ⟨k, hk⟩ ch ≤ 500
              ∧ (if k = 0 then 0 else (vs.getD (k - 1) (fun _ => 0)) ch) > 500)
          → edges_of ch ((successive_calls (globals_at_load mapping) vs).getD k []) = []))
    ∧ (vs.map (fun v => v ch) = [0, 600, 600, 400, 0] →
        (successive_calls (globals_at_load mapping) vs).map (edges_of ch)
          = [[], [Edge.Trigger], [], [Edge.Release], []]) := by
  have inv0 : (globals_at_load mapping).ads_triggered ch = true
      ↔ (globals_at_load mapping).prev_ads_values ch > 500 := by
    simp [globals_at_load]
  constructor
  · intro k hk
    have e := edges_of_successive_calls ch hch vs _ inv0 k hk
    exact edge_cases _ _ _ (fun h1 h2 => by omega) e
  · intro hs
    rw [successive_calls_edges ch hch vs _ inv0, hs]
    simp [expected_edges, globals_at_load]

/-- C1, at the default table, channel 1 and the five calls in which channel 1 reads
0, 600, 600, 400, 0 while channel 5 reads 700 throughout. -/
theorem process_ads_triggers_edge_detection_witness :
    (1 : Fin 6) ≠ 0
    ∧ (successive_calls (globals_at_load default_channel_mapping)
          [values_of [0, 0, 0, 0, 0, 700], values_of [0, 600, 0, 0, 0, 700],
           values_of [0, 600, 0, 0, 0, 700], values_of [0, 400, 0, 0, 0, 700],
           values_of [0, 0, 0, 0, 0, 700]]).map (edges_of 1)
        = [[], [Edge.Trigger], [], [Edge.Release], []] :=
  ⟨by decide,
   (process_ads_triggers_edge_detection default_channel_mapping 1 (by decide)
      [values_of [0, 0, 0, 0, 0, 700], values_of [0, 600, 0, 0, 0, 700],
       values_of [0, 600, 0, 0, 0, 700], values_of [0, 400, 0, 0, 0, 700],
       values_of [0, 0, 0, 0, 0, 700]]).2 (by decide)⟩


/-- C2, refuted as stated: from the initial globals, a tick in which ADS channel 0 reads
600 (all others 0) has no effect at all and leaves the detector state of channel 0 at
(0, false), so channel 0 is skipped and nothing is dispatched to sound channel 5; and a
tick in which ADS channel 1 reads 600 dispatches to sound channel 5 (Crash), not to
channel (6 - 1) - 1 = 4 (BassTom). -/
theorem process_ads_triggers_skips_channel_zero :
    (process_ads_triggers initial_globals (values_of [600, 0, 0, 0, 0, 0])).2 = []
    ∧ (process_ads_triggers initial_globals (values_of [600, 0, 0, 0, 0, 0])).1.prev_ads_values 0 = 0
    ∧ (process_ads_triggers initial_globals (values_of [600, 0, 0, 0, 0, 0])).1.ads_triggered 0
        = false
    ∧ (process_ads_triggers initial_globals (values_of [0, 600, 0, 0, 0, 0])).2
        = [Effect.lo_send "/drumkit/Crash" 1, Effect.printf_triggered 2 5 600] := by
  decide

theorem set_channel_trigger_valid (g : Globals) (c : Fin 6) (x : ℚ) :
    set_channel_trigger g (c.val : Int) x
      = [Effect.lo_send (osc_path (sound_name (g.channel_mapping c))) x] := by
  have hc := c.isLt
  have h : ¬ ((c.val : Int) < 0 ∨ (c.val : Int) ≥ NUM_CHANNELS) := by
    unfold NUM_CHANNELS
    omega
  unfold set_channel_trigger
  rw [dif_neg h]
  have hi : index6 (c.val : Int) (by omega) (by omega) = c := by
    apply Fin.ext
    simp [index6]
  simp only [hi]

/-- C2, amended: the effects of a call are those of ADS channels 1, 2, 3, 4, 5 in that
order, dispatched to sound channels 5, 4, 3, 2, 1 (the index `6 - ads_ch`, always a valid
channel): a rising edge sends the sound mapped to that channel with 1 and prints the
"triggered" line, a falling edge sends it with 0 and prints the "released" line. For
those channels the detector update runs (the sample is stored). ADS channel 0 is skipped
by the validity guard: its stored sample and flag are unchanged. -/
theorem process_ads_triggers_remap (g : Globals) (values : Fin 6 → Int) :
    (process_ads_triggers g values).2 =
      ([(1, 5), (2, 4), (3, 3), (4, 2), (5, 1)] : List (Fin 6 × Fin 6)).flatMap
        (fun p =>
          if rising_edge (g.ads_triggered p.1) (values p.1) (g.prev_ads_values p.1) then
            [Effect.lo_send (osc_path (sound_name (g.channel_mapping p.2))) 1,
             Effect.printf_triggered ((p.1.val : Int) + 1) (p.2.val : Int) (values p.1)]
          else if falling_edge (g.ads_triggered p.1) (values p.1) (g.prev_ads_values p.1) then
            [Effect.lo_send (osc_path (sound_name (g.channel_mapping p.2))) 0,
             Effect.printf_released ((p.1.val : Int) + 1) (p.2.val : Int) (values p.1)]
          else [])
    ∧ (∀ ch : Fin 6, ch ≠ 0 →
        (0 ≤ 6 - (ch.val : Int) ∧ 6 - (ch.val : Int) < NUM_CHANNELS)
        ∧ (process_ads_triggers g values).1.prev_ads_values ch = values ch)
    ∧ (process_ads_triggers g values).1.prev_ads_values 0 = g.prev_ads_values 0
    ∧ (process_ads_triggers g values).1.ads_triggered 0 = g.ads_triggered 0 := by
  refine ⟨?_, ?_, ?_, ?_⟩
  · rw [process_effects]
    have e5 := set_channel_trigger_valid g 5
    have e4 := set_channel_trigger_valid g 4
    have e3 := set_channel_trigger_valid g 3
    have e2 := set_channel_trigger_valid g 2
    have e1 := set_channel_trigger_valid g 1
    simp only [iteration_effects, List.flatMap_cons, List.flatMap_nil, List.append_nil]
    have a1 : (6 : Int) - (((1 : Fin 6).val : Nat) : Int) = (((5 : Fin 6).val : Nat) : Int) := by decide
    have a2 : (6 : Int) - (((2 : Fin 6).val : Nat) : Int) = (((4 : Fin 6).val : Nat) : Int) := by decide
    have a3 : (6 : Int) - (((3 : Fin 6).val : Nat) : Int) = (((3 : Fin 6).val : Nat) : Int) := by decide
    have a4 : (6 : Int) - (((4 : Fin 6).val : Nat) : Int) = (((2 : Fin 6).val : Nat) : Int) := by decide
    have a5 : (6 : Int) - (((5 : Fin 6).val : Nat) : Int) = (((1 : Fin 6).val : Nat) : Int) := by decide
    rw [a1, a2, a3, a4, a5]
    simp only [e1, e2, e3, e4, e5, List.singleton_append, List.append_assoc]
  · intro ch hch
    have hv : ch.val ≠ 0 := fun e => hch (Fin.ext e)
    have hlt := ch.isLt
    refine ⟨⟨by omega, by unfold NUM_CHANNELS; omega⟩, ?_⟩
    rw [process_prev]
    simp [hch]
  · rw [process_prev]; simp
  · rw [process_flag]; simp


/-- C3, refuted as stated: from the initial globals (default table, channel 0 -> Kick),
a tick in which every channel reads 0 followed by a tick in which channel 0 reads 520
and the others 0 sends nothing on the second tick: no "/drumkit/Kick" message. -/
theorem process_ads_triggers_no_kick :
    (process_ads_triggers
        (process_ads_triggers initial_globals (values_of [0, 0, 0, 0, 0, 0])).1
        (values_of [520, 0, 0, 0, 0, 0])).2 = []
    ∧ initial_globals.channel_mapping 0 = SOUND_KICK
    ∧ Effect.lo_send "/drumkit/Kick" 1 ∉
        (process_ads_triggers
          (process_ads_triggers initial_globals (values_of [0, 0, 0, 0, 0, 0])).1
          (values_of [520, 0, 0, 0, 0, 0])).2 := by
  decide

theorem iteration_effects_quiet (g : Globals) (values : Fin 6 → Int) (ch : Fin 6)
    (hp : g.prev_ads_values ch ≤ 500) (hv : values ch ≤ 500) :
    iteration_effects g values ch = [] := by
  unfold iteration_effects rising_edge falling_edge ADS_THRESHOLD
  have h1 : ¬ values ch > 500 := by omega
  have h2 : ¬ g.prev_ads_values ch > 500 := by omega
  simp [h1, h2]

theorem iteration_effects_rise (g : Globals) (values : Fin 6 → Int) (ch : Fin 6)
    (ht : g.ads_triggered ch = false) (hp : g.prev_ads_values ch ≤ 500) (hv : values ch > 500) :
    iteration_effects g values ch =
      set_channel_trigger g (6 - (ch.val : Int)) 1
        ++ [Effect.printf_triggered ((ch.val : Int) + 1) (6 - (ch.val : Int)) (values ch)] := by
  unfold iteration_effects rising_edge ADS_THRESHOLD
  simp [ht, hp, hv]

/-- C3, amended: from the initial globals, let a first tick read at most 500 on every
channel and a second tick read 520 on one channel `k` and at most 500 on the others.
If `k` is ADS channel 0 the second tick has no effect at all: no message is sent. If `k`
is one of the ADS channels 1..5 the second tick sends exactly one message, with payload 1
and the path of the sound mapped to channel `6 - k` ("/drumkit/Crash", "/drumkit/BassTom",
"/drumkit/OpenHihat", "/drumkit/Hihat", "/drumkit/Snare" for `k` = 1..5), followed by its
log line, and nothing else; in no case is the message "/drumkit/Kick". -/
theorem process_ads_triggers_end_to_end (v1 v2 : Fin 6 → Int) (k : Fin 6)
    (h1 : ∀ ch, v1 ch ≤ 500) (hk : v2 k = 520) (h2 : ∀ ch, ch ≠ k → v2 ch ≤ 500) :
    (process_ads_triggers (process_ads_triggers initial_globals v1).1 v2).2 =
      if k = 0 then []
      else [Effect.lo_send
              (["/drumkit/Crash", "/drumkit/BassTom", "/drumkit/OpenHihat", "/drumkit/Hihat",
                "/drumkit/Snare"].getD (k.val - 1) "") 1,
            Effect.printf_triggered ((k.val : Int) + 1) (6 - (k.val : Int)) 520] := by
  have hm : (process_ads_triggers initial_globals v1).1.channel_mapping = default_channel_mapping :=
    process_channel_mapping _ _
  have hprev : ∀ ch, (process_ads_triggers initial_globals v1).1.prev_ads_values ch ≤ 500 := by
    intro ch
    rw [process_prev]
    by_cases h0 : ch = 0
    · simp [h0, initial_globals, globals_at_load]
    · simp only [h0, if_false]
      exact h1 ch
  have hflag : ∀ ch, (process_ads_triggers initial_globals v1).1.ads_triggered ch = false := by
    intro ch
    rw [process_flag]
    by_cases h0 : ch = 0
    · simp [h0, initial_globals, globals_at_load]
    · have hc : ¬ v1 ch > 500 := by have := h1 ch; omega
      simp [h0, next_flag, rising_edge, falling_edge, initial_globals, globals_at_load,
        ADS_THRESHOLD, hc]
  have quiet : ∀ ch, ch ≠ k →
      iteration_effects (process_ads_triggers initial_globals v1).1 v2 ch = [] :=
    fun ch hne => iteration_effects_quiet _ _ _ (hprev ch) (h2 ch hne)
  have rise : iteration_effects (process_ads_triggers initial_globals v1).1 v2 k =
      set_channel_trigger (process_ads_triggers initial_globals v1).1 (6 - (k.val : Int)) 1
        ++ [Effect.printf_triggered ((k.val : Int) + 1) (6 - (k.val : Int)) (v2 k)] :=
    iteration_effects_rise _ _ _ (hflag k) (hprev k) (by rw [hk]; decide)
  have trig : ∀ (c : Int) (x : ℚ),
      set_channel_trigger (process_ads_triggers initial_globals v1).1 c x
        = set_channel_trigger initial_globals c x :=
    fun c x => set_channel_trigger_congr _ _ hm c x
  have hcases : k = 0 ∨ k = 1 ∨ k = 2 ∨ k = 3 ∨ k = 4 ∨ k = 5 := by
    fin_cases k <;> simp
  rw [process_effects]
  rcases hcases with rfl | rfl | rfl | rfl | rfl | rfl
  · rw [quiet 1 (by decide), quiet 2 (by decide), quiet 3 (by decide), quiet 4 (by decide),
      quiet 5 (by decide)]
    rfl
  · rw [quiet 2 (by decide), quiet 3 (by decide), quiet 4 (by decide), quiet 5 (by decide),
      rise, hk, trig]
    decide
  · rw [quiet 1 (by decide), quiet 3 (by decide), quiet 4 (by decide), quiet 5 (by decide),
      rise, hk, trig]
    decide
  · rw [quiet 1 (by decide), quiet 2 (by decide), quiet 4 (by decide), quiet 5 (by decide),
      rise, hk, trig]
    decide
  · rw [quiet 1 (by decide), quiet 2 (by decide), quiet 3 (by decide), quiet 5 (by decide),
      rise, hk, trig]
    decide
  · rw [quiet 1 (by decide), quiet 2 (by decide), quiet 3 (by decide), quiet 4 (by decide),
      rise, hk, trig]
    decide

/-- C3 amended, at the ticks (0, 0, 0, 0, 0, 0) then (0, 0, 0, 0, 0, 520): ADS channel 5
sends "/drumkit/Snare" with 1. -/
theorem process_ads_triggers_end_to_end_witness :
    (∀ ch, values_of [0, 0, 0, 0, 0, 0] ch ≤ 500)
    ∧ values_of [0, 0, 0, 0, 0, 520] 5 = 520
    ∧ (∀ ch, ch ≠ 5 → values_of [0, 0, 0, 0, 0, 520] ch ≤ 500)
    ∧ (process_ads_triggers
          (process_ads_triggers initial_globals (values_of [0, 0, 0, 0, 0, 0])).1
          (values_of [0, 0, 0, 0, 0, 520])).2
        = [Effect.lo_send "/drumkit/Snare" 1, Effect.printf_triggered 6 1 520] :=
  ⟨by decide, by decide, by decide,
   process_ads_triggers_end_to_end (values_of [0, 0, 0, 0, 0, 0]) (values_of [0, 0, 0, 0, 0, 520])
     5 (by decide) (by decide) (by decide)⟩


/-- C4, refuted as stated: on the scripted bus, a tick in which every conversion answers
600 leaves ADS channel 1 at (600, triggered); in the next tick every conversion times
out, `ADS1115_get_result` returns -1, and the edge detection of that tick stores -1 as
the previous sample of channel 1, clears its flag and emits a Release for it. -/
theorem failed_conversion_releases :
    (ADS1115_get_result script 10 2 3 silent).ret = some (-1)
    ∧ (sample_and_process script 10 3 (fun _ => 0) initial_globals (answering 2 88)).ret.bind
        (fun r1 => (sample_and_process script 10 3 (fun _ => 600) r1.1 silent).ret.map
          (fun r2 => (r1.1.prev_ads_values 1, r1.1.ads_triggered 1, r2.1.prev_ads_values 1,
                      r2.1.ads_triggered 1, edges_of 1 r2.2)))
      = some (600, true, -1, false, [Edge.Release]) := by
  decide

theorem get_result_poll_perror {σ : Type} (io : I2C σ) (file start_time : Int) (fuel : Nat) :
    ∀ s : σ, (∃ msg, Call.perror msg ∈ (ADS1115_get_result_poll io file start_time fuel s).trace)
      → (ADS1115_get_result_poll io file start_time fuel s).ret = Poll.failed := by
  induction fuel with
  | zero => intro s h; simp [ADS1115_get_result_poll] at h
  | succ n ih =>
    intro s h
    unfold ADS1115_get_result_poll at h ⊢
    simp only at h ⊢
    split_ifs at h ⊢ with h1 h2 h3 h4
    · rfl
    · rfl
    · simp at h
    · rfl
    · simp only [List.mem_append, List.mem_cons, List.mem_singleton, reduceCtorEq, or_false,
        List.not_mem_nil, false_or] at h
      exact ih _ h

theorem read_conversion_perror {σ : Type} (io : I2C σ) (file : Int) (s : σ) :
    (∃ msg, Call.perror msg ∈ (read_conversion io file s).trace)
      → (read_conversion io file s).ret = -1 := by
  intro h
  unfold read_conversion at h ⊢
  simp only at h ⊢
  split_ifs at h ⊢ with h1 h2
  · rfl
  · rfl
  · simp at h

theorem get_result_select_no_perror (channel : Int) (msg : String) :
    Call.perror msg ∉ (ADS1115_get_result_select channel).2.2 := by
  unfold ADS1115_get_result_select
  simp only
  split_ifs <;> simp

theorem get_result_perror {σ : Type} (io : I2C σ) (fuel : Nat) (channel file : Int) (s : σ)
    (h : ∃ msg, Call.perror msg ∈ (ADS1115_get_result io fuel channel file s).trace) :
    (ADS1115_get_result io fuel channel file s).ret = some (-1)
      ∨ (ADS1115_get_result io fuel channel file s).ret = some 1 := by
  obtain ⟨msg, hm⟩ := h
  have hsel := get_result_select_no_perror channel msg
  unfold ADS1115_get_result at hm ⊢
  simp only at hm ⊢
  split_ifs at hm ⊢ with h1
  · right; rfl
  · cases hp : (ADS1115_get_result_poll io file
        (io.clock (io.ioctl s file (ADS1115_get_result_select channel).2.1).1).2 fuel
        (io.clock (io.ioctl s file (ADS1115_get_result_select channel).2.1).1).1).ret
    · simp only [hp, List.mem_append, List.mem_cons, List.mem_singleton, reduceCtorEq,
        List.not_mem_nil, or_false, false_or, hsel] at hm
      rcases hm with hm | hm
      · have := get_result_poll_perror io file _ fuel _ ⟨msg, hm⟩
        rw [hp] at this
        cases this
      · left
        simp only [hp]
        rw [read_conversion_perror io file _ ⟨msg, hm⟩]
    · left
      simp only [hp]
    · simp only [hp, List.mem_append, List.mem_cons, List.mem_singleton, reduceCtorEq,
        List.not_mem_nil, or_false, false_or, hsel] at hm
      have := get_result_poll_perror io file _ fuel _ ⟨msg, hm⟩
      rw [hp] at this
      cases this


/-- C4, amended: when a channel's conversion fails in a tick (an error is reported in
`ADS1115_get_result`), the value returned is -1 or 1 and `main` stores it as that
channel's sample; the edge detection of the tick treats it as any sample at or below the
threshold. For ADS channels 1..5 the previous sample becomes that value, no Trigger is
emitted, a Release is emitted exactly when the channel was triggered with a previous
sample above 500 (otherwise nothing is emitted), and the flag ends up set only if it was
set with a previous sample not above 500. -/
theorem failed_conversion_is_a_sample {σ : Type} (io : I2C σ) (fuel : Nat) (channel file : Int)
    (s : σ) (g : Globals) (values : Fin 6 → Int) (ch : Fin 6) (hch : ch ≠ 0)
    (herr : ∃ msg, Call.perror msg ∈ (ADS1115_get_result io fuel channel file s).trace)
    (hv : (ADS1115_get_result io fuel channel file s).ret = some (values ch)) :
    (values ch = -1 ∨ values ch = 1)
    ∧ (process_ads_triggers g values).1.prev_ads_values ch = values ch
    ∧ Edge.Trigger ∉ edges_of ch (process_ads_triggers g values).2
    ∧ (edges_of ch (process_ads_triggers g values).2 = [Edge.Release]
        ↔ g.ads_triggered ch = true ∧ g.prev_ads_values ch > 500)
    ∧ (¬ (g.ads_triggered ch = true ∧ g.prev_ads_values ch > 500)
        → edges_of ch (process_ads_triggers g values).2 = [])
    ∧ ((process_ads_triggers g values).1.ads_triggered ch = true
        ↔ g.ads_triggered ch = true ∧ g.prev_ads_values ch ≤ 500) := by
  have hval : values ch = -1 ∨ values ch = 1 := by
    rcases get_result_perror io fuel channel file s herr with h | h
    · rw [h] at hv
      left
      exact (Option.some.inj hv).symm
    · rw [h] at hv
      right
      exact (Option.some.inj hv).symm
  have hle : ¬ values ch > 500 := by omega
  have hle2 : values ch ≤ 500 := by omega
  have hedges := edges_of_process ch hch g values
  have hflag := process_flag g values ch
  simp only [hch, if_false] at hflag
  unfold rising_edge falling_edge ADS_THRESHOLD at hedges
  unfold next_flag rising_edge falling_edge ADS_THRESHOLD at hflag
  refine ⟨hval, ?_, ?_, ?_, ?_, ?_⟩
  · rw [process_prev]
    simp [hch]
  · rw [hedges]
    by_cases hf : g.ads_triggered ch = true ∧ g.prev_ads_values ch > 500
    · simp [hle, hle2, hf.1, hf.2]
    · simp only [hle, hle2, and_false, false_and, if_false, true_and]
      split_ifs; simp
  · rw [hedges]
    by_cases hf : g.ads_triggered ch = true ∧ g.prev_ads_values ch > 500
    · simp [hle, hle2, hf.1, hf.2]
    · simp only [hle, hle2, and_false, false_and, if_false, true_and, hf, if_false]
      simp
  · intro hf
    rw [hedges]
    simp only [hle, hle2, and_false, false_and, if_false, true_and, hf, if_false]
  · rw [hflag]
    cases ht : g.ads_triggered ch
    · simp [hle]
    · by_cases hp : g.prev_ads_values ch > 500
      · have : ¬ g.prev_ads_values ch ≤ 500 := by omega
        simp [hle, hle2, hp, this]
      · have : g.prev_ads_values ch ≤ 500 := by omega
        simp [hle, hle2, hp, this]

/-- C4 amended, on the scripted bus: channel 1 stands at (600, triggered), the
conversion fetched for it times out and returns -1, and the tick emits a Release. -/
theorem failed_conversion_is_a_sample_witness :
    (1 : Fin 6) ≠ 0
    ∧ (∃ msg, Call.perror msg ∈ (ADS1115_get_result script 10 2 3 silent).trace)
    ∧ (ADS1115_get_result script 10 2 3 silent).ret = some (values_of [0, -1, 0, 0, 0, 0] 1)
    ∧ edges_of 1 (process_ads_triggers
          (process_ads_triggers initial_globals (values_of [0, 600, 0, 0, 0, 0])).1
          (values_of [0, -1, 0, 0, 0, 0])).2 = [Edge.Release] :=
  ⟨by decide, ⟨"Timeout waiting for conversion", by decide⟩, by decide,
   (failed_conversion_is_a_sample script 10 2 3 silent
      (process_ads_triggers initial_globals (values_of [0, 600, 0, 0, 0, 0])).1
      (values_of [0, -1, 0, 0, 0, 0]) 1 (by decide)
      ⟨"Timeout waiting for conversion", by decide⟩ (by decide)).2.2.2.1.mpr (by decide)⟩


theorem start_reading_trace {σ : Type} (io : I2C σ) (channel file : Int) (s : σ) :
    ∃ rest, (ADS1115_start_reading io channel file s).trace
      = (ADS1115_start_reading_select channel).2.2
          ++ Call.ioctl file (ADS1115_start_reading_select channel).2.1 :: rest := by
  unfold ADS1115_start_reading
  simp only
  split_ifs
  · exact ⟨_, rfl⟩
  · exact ⟨_, by simp only [List.append_assoc]; rfl⟩
  · exact ⟨_, rfl⟩

theorem get_result_trace {σ : Type} (io : I2C σ) (fuel : Nat) (channel file : Int) (s : σ) :
    ∃ rest, (ADS1115_get_result io fuel channel file s).trace
      = (ADS1115_get_result_select channel).2.2
          ++ Call.ioctl file (ADS1115_get_result_select channel).2.1 :: rest := by
  unfold ADS1115_get_result
  simp only
  split_ifs
  · exact ⟨_, rfl⟩
  · split
    · exact ⟨_, by simp only [List.append_assoc]; rfl⟩
    · exact ⟨_, by simp only [List.append_assoc]; rfl⟩
    · exact ⟨_, by simp only [List.append_assoc]; rfl⟩

theorem read_trace {σ : Type} (io : I2C σ) (fuel : Nat) (channel file : Int) (s : σ) :
    ∃ rest, (ADS1115_read io fuel channel file s).trace
      = (ADS1115_read_select channel).2.2
          ++ Call.ioctl file (ADS1115_read_select channel).2.1 :: rest := by
  unfold ADS1115_read
  simp only
  split_ifs
  · exact ⟨_, rfl⟩
  · exact ⟨_, by simp only [List.append_assoc]; rfl⟩
  · split
    · exact ⟨_, by simp only [List.append_assoc]; rfl⟩
    · exact ⟨_, by simp only [List.append_assoc]; rfl⟩
    · exact ⟨_, by simp only [List.append_assoc]; rfl⟩

/-- C5. Channel addressing: for a channel in 0..3 each of `ADS1115_start_reading`,
`ADS1115_get_result` and `ADS1115_read` selects the device at the base address 0x48 with
local channel `channel`, and for a channel in 4..7 the device at 0x49 with local channel
`channel - 4`; the address is the one each function passes to its first bus call, the
`ioctl`; and the three functions resolve every channel identically. -/
theorem channel_addressing {σ : Type} (io : I2C σ) (fuel : Nat) (channel file : Int) (s : σ)
    (h0 : 0 ≤ channel) (h7 : channel ≤ 7) :
    (channel ≤ 3 →
      ADS1115_start_reading_select channel = (channel, 0x48, [])
      ∧ ADS1115_get_result_select channel = (channel, 0x48, [])
      ∧ ADS1115_read_select channel = (channel, 0x48, [])
      ∧ (ADS1115_start_reading io channel file s).trace.head? = some (Call.ioctl file 0x48)
      ∧ (ADS1115_get_result io fuel channel file s).trace.head? = some (Call.ioctl file 0x48)
      ∧ (ADS1115_read io fuel channel file s).trace.head? = some (Call.ioctl file 0x48))
    ∧ (4 ≤ channel →
      ADS1115_start_reading_select channel = (channel - 4, 0x49, [])
      ∧ ADS1115_get_result_select channel = (channel - 4, 0x49, [])
      ∧ ADS1115_read_select channel = (channel - 4, 0x49, [])
      ∧ (ADS1115_start_reading io channel file s).trace.head? = some (Call.ioctl file 0x49)
      ∧ (ADS1115_get_result io fuel channel file s).trace.head? = some (Call.ioctl file 0x49)
      ∧ (ADS1115_read io fuel channel file s).trace.head? = some (Call.ioctl file 0x49))
    ∧ ADS1115_start_reading_select channel = ADS1115_get_result_select channel
    ∧ ADS1115_get_result_select channel = ADS1115_read_select channel
    ∧ DEFAULT_ADS1115_ADDRESS = 0x48 := by
  have hr : ¬ (channel < 0 ∨ channel > 7) := by omega
  obtain ⟨r1, e1⟩ := start_reading_trace io channel file s
  obtain ⟨r2, e2⟩ := get_result_trace io fuel channel file s
  obtain ⟨r3, e3⟩ := read_trace io fuel channel file s
  refine ⟨?_, ?_, rfl, rfl, rfl⟩
  · intro h3
    have hn : ¬ channel > 3 := by omega
    have s1 : ADS1115_start_reading_select channel = (channel, 0x48, []) := by
      simp [ADS1115_start_reading_select, hr, hn, DEFAULT_ADS1115_ADDRESS]
    have s2 : ADS1115_get_result_select channel = (channel, 0x48, []) := by
      simp [ADS1115_get_result_select, hr, hn, DEFAULT_ADS1115_ADDRESS]
    have s3 : ADS1115_read_select channel = (channel, 0x48, []) := by
      simp [ADS1115_read_select, hr, hn, DEFAULT_ADS1115_ADDRESS]
    rw [e1, e2, e3, s1, s2, s3]
    simp
  · intro h4
    have hn : channel > 3 := by omega
    have s1 : ADS1115_start_reading_select channel = (channel - 4, 0x49, []) := by
      simp [ADS1115_start_reading_select, hr, hn, DEFAULT_ADS1115_ADDRESS]
    have s2 : ADS1115_get_result_select channel = (channel - 4, 0x49, []) := by
      simp [ADS1115_get_result_select, hr, hn, DEFAULT_ADS1115_ADDRESS]
    have s3 : ADS1115_read_select channel = (channel - 4, 0x49, []) := by
      simp [ADS1115_read_select, hr, hn, DEFAULT_ADS1115_ADDRESS]
    rw [e1, e2, e3, s1, s2, s3]
    simp

/-- C5, for logical channel 6 on the scripted bus: device 0x49, local channel 2. -/
theorem channel_addressing_witness :
    (0 : Int) ≤ 6 ∧ (6 : Int) ≤ 7
    ∧ ADS1115_get_result_select 6 = (2, 0x49, [])
    ∧ (ADS1115_start_reading script 6 3 (answering 2 88)).trace.head? = some (Call.ioctl 3 0x49) :=
  ⟨by decide, by decide,
   ((channel_addressing script 10 6 3 (answering 2 88) (by decide) (by decide)).2.1
      (by decide)).2.1,
   ((channel_addressing script 10 6 3 (answering 2 88) (by decide) (by decide)).2.1
      (by decide)).2.2.2.1⟩


/-- C6. An integer channel outside 0..7 is resolved by `ADS1115_start_reading`,
`ADS1115_get_result` and `ADS1115_read` exactly as channel 0 (local channel 0 at the
base address), with the warning line printed; after that line the call makes the calls,
reaches the bus state and returns the value of the same call for channel 0. -/
theorem invalid_channel_reads_channel_zero {σ : Type} (io : I2C σ) (fuel : Nat)
    (channel file : Int) (s : σ) (h : channel < 0 ∨ channel > 7) :
    (ADS1115_start_reading_select channel = (0, 0x48, [Call.printf_invalid_channel])
      ∧ ADS1115_get_result_select channel = (0, 0x48, [Call.printf_invalid_channel])
      ∧ ADS1115_read_select channel = (0, 0x48, [Call.printf_invalid_channel]))
    ∧ (ADS1115_start_reading_select 0 = (0, 0x48, [])
      ∧ ADS1115_get_result_select 0 = (0, 0x48, [])
      ∧ ADS1115_read_select 0 = (0, 0x48, []))
    ∧ ADS1115_start_reading io channel file s =
        { state := (ADS1115_start_reading io 0 file s).state
          trace := Call.printf_invalid_channel :: (ADS1115_start_reading io 0 file s).trace
          ret := (ADS1115_start_reading io 0 file s).ret }
    ∧ ADS1115_get_result io fuel channel file s =
        { state := (ADS1115_get_result io fuel 0 file s).state
          trace := Call.printf_invalid_channel :: (ADS1115_get_result io fuel 0 file s).trace
          ret := (ADS1115_get_result io fuel 0 file s).ret }
    ∧ ADS1115_read io fuel channel file s =
        { state := (ADS1115_read io fuel 0 file s).state
          trace := Call.printf_invalid_channel :: (ADS1115_read io fuel 0 file s).trace
          ret := (ADS1115_read io fuel 0 file s).ret } := by
  have s1 : ADS1115_start_reading_select channel = (0, 0x48, [Call.printf_invalid_channel]) := by
    simp [ADS1115_start_reading_select, h, DEFAULT_ADS1115_ADDRESS]
  have s2 : ADS1115_get_result_select channel = (0, 0x48, [Call.printf_invalid_channel]) := by
    simp [ADS1115_get_result_select, h, DEFAULT_ADS1115_ADDRESS]
  have s3 : ADS1115_read_select channel = (0, 0x48, [Call.printf_invalid_channel]) := by
    simp [ADS1115_read_select, h, DEFAULT_ADS1115_ADDRESS]
  have z1 : ADS1115_start_reading_select 0 = (0, 0x48, []) := by decide
  have z2 : ADS1115_get_result_select 0 = (0, 0x48, []) := by decide
  have z3 : ADS1115_read_select 0 = (0, 0x48, []) := by decide
  refine ⟨⟨s1, s2, s3⟩, ⟨z1, z2, z3⟩, ?_, ?_, ?_⟩
  · unfold ADS1115_start_reading
    rw [s1, z1]
    simp only
    split_ifs <;> rfl
  · unfold ADS1115_get_result
    rw [s2, z2]
    simp only
    split_ifs
    · rfl
    · split <;> rfl
  · unfold ADS1115_read
    rw [s3, z3]
    simp only
    split_ifs
    · rfl
    · rfl
    · split <;> rfl

/-- C6, for channel 9 on the scripted bus: the conversion of channel 0 is read. -/
theorem invalid_channel_reads_channel_zero_witness :
    ((9 : Int) < 0 ∨ (9 : Int) > 7)
    ∧ ADS1115_read script 10 9 3 (answering 255 254) =
        { state := (ADS1115_read script 10 0 3 (answering 255 254)).state
          trace := Call.printf_invalid_channel
                     :: (ADS1115_read script 10 0 3 (answering 255 254)).trace
          ret := (ADS1115_read script 10 0 3 (answering 255 254)).ret } :=
  ⟨by decide,
   (invalid_channel_reads_channel_zero script 10 9 3 (answering 255 254) (by decide)).2.2.2.2⟩


/-- C7. Config word packing: for the logical channel `c + 4 * dev` with local channel
`c` in 0..3 on device `dev` in 0..1, the word `0xC1E3 + 0x1000 * c` has bit 15 set, bits
14-12 equal to `4 + c`, bit 8 set, bits 7-5 all set, bits 1-0 both set and every other
bit (11-9 and 4-2) clear, and fits 16 bits; and when the device is selected, the second
bus call of `ADS1115_start_reading` and of `ADS1115_read` writes the three bytes
register id 1, high byte of the word, low byte of the word. -/
theorem config_word_packing {σ : Type} (io : I2C σ) (fuel : Nat) (c dev : Nat) (file : Int)
    (s : σ) (hc : c ≤ 3) (hdev : dev ≤ 1)
    (hio : ¬ (io.ioctl s file (0x48 + (dev : Int))).2 < 0) :
    ((0xC1E3 + 0x1000 * c).testBit 15 = true
      ∧ ((0xC1E3 + 0x1000 * c) >>> 12) &&& 7 = 4 + c
      ∧ (0xC1E3 + 0x1000 * c).testBit 8 = true
      ∧ ((0xC1E3 + 0x1000 * c) >>> 5) &&& 7 = 7
      ∧ (0xC1E3 + 0x1000 * c) &&& 3 = 3
      ∧ (0xC1E3 + 0x1000 * c) &&& 0x0E1C = 0
      ∧ 0xC1E3 + 0x1000 * c < 65536)
    ∧ (ADS1115_start_reading io ((c : Int) + 4 * (dev : Int)) file s).trace.take 2
        = [Call.ioctl file (0x48 + (dev : Int)),
           Call.write file [1, (0xC1E3 + 0x1000 * c) >>> 8, (0xC1E3 + 0x1000 * c) &&& 0xFF]]
    ∧ (ADS1115_read io fuel ((c : Int) + 4 * (dev : Int)) file s).trace.take 2
        = [Call.ioctl file (0x48 + (dev : Int)),
           Call.write file [1, (0xC1E3 + 0x1000 * c) >>> 8, (0xC1E3 + 0x1000 * c) &&& 0xFF]] := by
  have hsel1 : ADS1115_start_reading_select ((c : Int) + 4 * (dev : Int))
      = ((c : Int), 0x48 + (dev : Int), []) := by
    interval_cases c <;> interval_cases dev <;> decide
  have hsel3 : ADS1115_read_select ((c : Int) + 4 * (dev : Int))
      = ((c : Int), 0x48 + (dev : Int), []) := by
    interval_cases c <;> interval_cases dev <;> decide
  have hword : (ADS1115_CONFIG_OS_SINGLE ||| ADS1115_CONFIG_MUX_SINGLE
        ||| ADS1115_CONFIG_MODE_SINGLE ||| ADS1115_CONFIG_DR_860SPS ||| ADS1115_CONFIG_CQUE_NONE
        ||| (((c : Int)).toNat <<< 12)) % 65536 = 0xC1E3 + 0x1000 * c := by
    interval_cases c <;> decide
  have hhi : ((0xC1E3 + 0x1000 * c) >>> 8) % 256 = (0xC1E3 + 0x1000 * c) >>> 8 := by
    interval_cases c <;> decide
  have hlo : ((0xC1E3 + 0x1000 * c) &&& 0xFF) % 256 = (0xC1E3 + 0x1000 * c) &&& 0xFF := by
    interval_cases c <;> decide
  refine ⟨?_, ?_, ?_⟩
  · interval_cases c <;> decide
  · unfold ADS1115_start_reading
    rw [hsel1]
    simp only [hio, if_false, hword, hhi, hlo, List.nil_append]
    split_ifs <;> rfl
  · unfold ADS1115_read
    rw [hsel3]
    simp only [hio, if_false, hword, hhi, hlo, List.nil_append]
    split_ifs
    · rfl
    · split <;> rfl

/-- C7, for logical channel 6 (local channel 2 on the second device) on the scripted
bus: the word is 0xE1E3 and the bytes written are 1, 0xE1, 0xE3. -/
theorem config_word_packing_witness :
    (2 : Nat) ≤ 3 ∧ (1 : Nat) ≤ 1
    ∧ ¬ (script.ioctl (answering 2 88) 3 (0x48 + ((1 : Nat) : Int))).2 < 0
    ∧ (ADS1115_start_reading script (((2 : Nat) : Int) + 4 * ((1 : Nat) : Int)) 3
          (answering 2 88)).trace.take 2
        = [Call.ioctl 3 (0x48 + ((1 : Nat) : Int)),
           Call.write 3 [1, (0xC1E3 + 0x1000 * 2) >>> 8, (0xC1E3 + 0x1000 * 2) &&& 0xFF]] :=
  ⟨by decide, by decide, by decide,
   (config_word_packing script 10 2 1 3 (answering 2 88) (by decide) (by decide)
      (by decide)).2.1⟩


theorem sample_of_bytes_eq (high low : Nat) (hh : high ≤ 255) (hl : low ≤ 255) :
    sample_of_bytes high low =
      if high < 128 then (256 * high + low : Int) else (256 * high + low : Int) - 65536 := by
  unfold sample_of_bytes toInt16
  have e1 : high % 256 = high := Nat.mod_eq_of_lt (by omega)
  have e2 : low % 256 = low := Nat.mod_eq_of_lt (by omega)
  have e3 : (high <<< 8) ||| low = 256 * high + low := by
    rw [Nat.shiftLeft_eq, Nat.mul_comm]
    exact (Nat.mul_add_lt_is_or (i := 8) (by omega) high).symm
  rw [e1, e2, e3]
  have e4 : (256 * high + low) % 65536 = 256 * high + low := Nat.mod_eq_of_lt (by omega)
  rw [e4]
  by_cases h : high < 128
  · have : 256 * high + low < 32768 := by omega
    simp only [this, h, if_true]
    push_cast
    ring
  · have : ¬ 256 * high + low < 32768 := by omega
    simp only [this, h, if_false]
    push_cast
    ring

set_option maxRecDepth 100000 in
theorem msb_iff (high : Nat) (hh : high ≤ 255) : high &&& 0x80 ≠ 0 ↔ 128 ≤ high := by
  have key : ∀ x : Fin 256, (x.val &&& 0x80 ≠ 0 ↔ 128 ≤ x.val) := by decide
  exact key ⟨high, by omega⟩

theorem get_result_answering (fuel : Nat) (channel file : Int) (high low : Nat) :
    (ADS1115_get_result script (fuel + 1) channel file (answering high low)).ret
      = some (sample_of_bytes high low) := by
  simp [ADS1115_get_result, ADS1115_get_result_poll, read_conversion, script, answering]

theorem read_answering (fuel : Nat) (channel file : Int) (high low : Nat) :
    (ADS1115_read script (fuel + 1) channel file (answering high low)).ret
      = some (sample_of_bytes high low) := by
  simp [ADS1115_read, ADS1115_read_poll, read_conversion, script, answering]


theorem read_conversion_ok {σ : Type} (io : I2C σ) (file : Int) (s : σ) (high low : Nat)
    (hw : (io.write s file [0]).2 = 1)
    (hr : (io.read (io.write s file [0]).1 file 2).2 = (2, [high, low])) :
    (read_conversion io file s).ret = sample_of_bytes high low := by
  unfold read_conversion
  simp [hw, hr]

/-- C8. Sample composition: for result-register bytes `high`, `low` in 0..255 the value
composed by `ADS1115_get_result` and `ADS1115_read` is the 16-bit two's-complement
reading of the big-endian pair, `256 * high + low` when `high < 128` and
`256 * high + low - 65536` otherwise; it is negative exactly when the top bit of the
first byte is set, and lies in the `int16_t` range. It is what a conversion returns when
the register pointer write succeeds and the two bytes are read (on any bus), and what
both functions return on a bus whose device answers `high`, `low`. Every `int16_t` value
arises from exactly one byte pair. -/
theorem sample_composition (high low : Nat) (hh : high ≤ 255) (hl : low ≤ 255) :
    sample_of_bytes high low
        = (if high < 128 then (256 * high + low : Int) else (256 * high + low : Int) - 65536)
    ∧ (sample_of_bytes high low < 0 ↔ high &&& 0x80 ≠ 0)
    ∧ (-32768 ≤ sample_of_bytes high low ∧ sample_of_bytes high low ≤ 32767)
    ∧ (∀ {σ : Type} (io : I2C σ) (file : Int) (s : σ),
        (io.write s file [0]).2 = 1 →
        (io.read (io.write s file [0]).1 file 2).2 = (2, [high, low]) →
        (read_conversion io file s).ret = sample_of_bytes high low)
    ∧ (∀ (fuel : Nat) (channel file : Int),
        (ADS1115_get_result script (fuel + 1) channel file (answering high low)).ret
            = some (sample_of_bytes high low)
        ∧ (ADS1115_read script (fuel + 1) channel file (answering high low)).ret
            = some (sample_of_bytes high low))
    ∧ (∀ v : Int, -32768 ≤ v → v ≤ 32767 →
        ∃! p : Nat × Nat, p.1 ≤ 255 ∧ p.2 ≤ 255 ∧ sample_of_bytes p.1 p.2 = v) := by
  have e := sample_of_bytes_eq high low hh hl
  refine ⟨e, ?_, ?_, ?_, ?_, ?_⟩
  · rw [msb_iff high hh, e]
    split_ifs <;> omega
  · rw [e]
    split_ifs <;> omega
  · intro σ io file s hw hr
    exact read_conversion_ok io file s high low hw hr
  · intro fuel channel file
    exact ⟨get_result_answering fuel channel file high low,
      read_answering fuel channel file high low⟩
  · intro v hlo hhi
    refine ⟨(((v % 65536).toNat) / 256, ((v % 65536).toNat) % 256), ?_, ?_⟩
    · have hb1 : ((v % 65536).toNat) / 256 ≤ 255 := by omega
      have hb2 : ((v % 65536).toNat) % 256 ≤ 255 := by omega
      refine ⟨hb1, hb2, ?_⟩
      rw [sample_of_bytes_eq _ _ hb1 hb2]
      split_ifs <;> omega
    · rintro ⟨a, b⟩ ⟨ha, hb, hab⟩
      simp only at ha hb hab
      rw [sample_of_bytes_eq a b ha hb] at hab
      have : a = ((v % 65536).toNat) / 256 ∧ b = ((v % 65536).toNat) % 256 := by
        split_ifs at hab <;> omega
      rw [this.1, this.2]

/-- C8, for the bytes 0xFF, 0xFE: the sample is -2. -/
theorem sample_composition_witness :
    (255 : Nat) ≤ 255 ∧ (254 : Nat) ≤ 255
    ∧ sample_of_bytes 255 254 = -2
    ∧ (ADS1115_get_result script (0 + 1) 1 3 (answering 255 254)).ret
        = some (sample_of_bytes 255 254) :=
  ⟨by decide, by decide,
   (sample_composition 255 254 (by decide) (by decide)).1.trans (by decide),
   ((sample_composition 255 254 (by decide) (by decide)).2.2.2.2.1 0 1 3).1⟩


theorem osc_path_valid (sound : Int) (h0 : 0 ≤ sound) (h1 : sound < SOUND_COUNT) :
    ∃ name, sound_names.get? sound.toNat = some name
      ∧ osc_path (sound_name sound) = "/drumkit/" ++ name := by
  unfold SOUND_COUNT at h1
  interval_cases sound
  · exact ⟨"Kick", by decide, by decide⟩
  · exact ⟨"Snare", by decide, by decide⟩
  · exact ⟨"Hihat", by decide, by decide⟩
  · exact ⟨"OpenHihat", by decide, by decide⟩
  · exact ⟨"BassTom", by decide, by decide⟩
  · exact ⟨"MedTom", by decide, by decide⟩
  · exact ⟨"HighTom", by decide, by decide⟩
  · exact ⟨"Crash", by decide, by decide⟩

/-- C9. Dispatch: for a valid channel `c` mapped to a sound `S` of the enumeration,
`set_channel_trigger` has exactly one effect, the message whose path is "/drumkit/"
followed by `sound_names[S]` and whose float argument is the given value; for a channel
outside 0..NUM_CHANNELS-1 its only effect is the "Invalid channel" line, so no message
is sent; and the effects of `process_ads_triggers` are, for each ADS channel that is not
skipped, those of `set_channel_trigger` with value 1 followed by the "triggered" line on
a rising edge, those of `set_channel_trigger` with value 0 followed by the "released"
line on a falling edge, and nothing otherwise. -/
theorem dispatch_sends_one_message (g : Globals) (c : Fin 6) (value : ℚ)
    (hS : 0 ≤ g.channel_mapping c ∧ g.channel_mapping c < SOUND_COUNT) :
    (∃ name, sound_names.get? (g.channel_mapping c).toNat = some name
        ∧ set_channel_trigger g (c.val : Int) value
            = [Effect.lo_send ("/drumkit/" ++ name) value])
    ∧ (∀ channel : Int, channel < 0 ∨ channel ≥ NUM_CHANNELS →
        set_channel_trigger g channel value = [Effect.printf_invalid_channel channel])
    ∧ (∀ values : Fin 6 → Int,
        (process_ads_triggers g values).2 =
          (List.finRange 6).flatMap (fun ch =>
            if ch = 0 then []
            else if rising_edge (g.ads_triggered ch) (values ch) (g.prev_ads_values ch) then
              set_channel_trigger g (6 - (ch.val : Int)) 1
                ++ [Effect.printf_triggered ((ch.val : Int) + 1) (6 - (ch.val : Int)) (values ch)]
            else if falling_edge (g.ads_triggered ch) (values ch) (g.prev_ads_values ch) then
              set_channel_trigger g (6 - (ch.val : Int)) 0
                ++ [Effect.printf_released ((ch.val : Int) + 1) (6 - (ch.val : Int)) (values ch)]
            else [])) := by
  refine ⟨?_, ?_, ?_⟩
  · obtain ⟨name, hn, hp⟩ := osc_path_valid _ hS.1 hS.2
    exact ⟨name, hn, by rw [set_channel_trigger_valid, hp]⟩
  · intro channel h
    unfold set_channel_trigger
    rw [dif_pos h]
  · intro values
    rw [process_effects, finRange_six]
    simp only [List.flatMap_cons, List.flatMap_nil, List.append_nil, iteration_effects]
    simp only [if_true, List.nil_append, List.append_assoc,
      show ((1 : Fin 6) = 0) = False from by decide, show ((2 : Fin 6) = 0) = False from by decide,
      show ((3 : Fin 6) = 0) = False from by decide, show ((4 : Fin 6) = 0) = False from by decide,
      show ((5 : Fin 6) = 0) = False from by decide, if_false]

/-- C9, for channel 2 of the default table (Hihat) and the value 1. -/
theorem dispatch_sends_one_message_witness :
    (0 ≤ initial_globals.channel_mapping 2 ∧ initial_globals.channel_mapping 2 < SOUND_COUNT)
    ∧ ∃ name, sound_names.get? (initial_globals.channel_mapping 2).toNat = some name
        ∧ set_channel_trigger initial_globals (((2 : Fin 6).val : Nat) : Int) 1
            = [Effect.lo_send ("/drumkit/" ++ name) 1] :=
  ⟨by decide, (dispatch_sends_one_message initial_globals 2 1 (by decide)).1⟩

/-- C10. Channel-Sound Map rejection: a call `set_channel_mapping(channel, sound)` with
`channel` outside 0..NUM_CHANNELS-1 or `sound` outside 0..SOUND_COUNT-1 leaves the table
`channel_mapping` (and every other global) unchanged; a call with both in range leaves
`channel_mapping[channel] = sound` and every other entry unchanged. -/
theorem set_channel_mapping_validates (g : Globals) (channel sound : Int) :
    ((channel < 0 ∨ channel ≥ NUM_CHANNELS) ∨ (sound < 0 ∨ sound ≥ SOUND_COUNT) →
        (set_channel_mapping g channel sound).1 = g)
    ∧ (∀ c : Fin 6, channel = (c.val : Int) → 0 ≤ sound → sound < SOUND_COUNT →
        (set_channel_mapping g channel sound).1.channel_mapping c = sound
        ∧ (∀ c' : Fin 6, c' ≠ c →
            (set_channel_mapping g channel sound).1.channel_mapping c' = g.channel_mapping c')
        ∧ (set_channel_mapping g channel sound).1.prev_ads_values = g.prev_ads_values
        ∧ (set_channel_mapping g channel sound).1.ads_triggered = g.ads_triggered)
    ∧ NUM_CHANNELS = 6 ∧ SOUND_COUNT = 8 := by
  refine ⟨?_, ?_, rfl, rfl⟩
  · intro h
    unfold set_channel_mapping
    by_cases hc : channel < 0 ∨ channel ≥ NUM_CHANNELS
    · rw [dif_pos hc]
    · rw [dif_neg hc]
      have hs : sound < 0 ∨ sound ≥ SOUND_COUNT := h.resolve_left hc
      rw [if_pos hs]
  · intro c hc h0 h1
    have hlt := c.isLt
    have hch : ¬ (channel < 0 ∨ channel ≥ NUM_CHANNELS) := by
      unfold NUM_CHANNELS
      omega
    have hs : ¬ (sound < 0 ∨ sound ≥ SOUND_COUNT) := by omega
    have hi : ∀ (p0 : 0 ≤ channel) (p1 : channel < 6), index6 channel p0 p1 = c := by
      intro p0 p1
      apply Fin.ext
      simp [index6, hc]
    unfold set_channel_mapping
    rw [dif_neg hch, if_neg hs]
    dsimp only
    rw [hi]
    refine ⟨by simp, ?_, rfl, rfl⟩
    intro c' hne
    simp [Function.update, hne]

/-- C10, on the initial globals: channel 0 is remapped to HighTom as `main` does at
start-up, and a call with channel 6 or with sound 8 changes nothing. -/
theorem set_channel_mapping_validates_witness :
    (set_channel_mapping initial_globals 0 SOUND_HIGH_TOM).1.channel_mapping 0 = SOUND_HIGH_TOM
    ∧ (set_channel_mapping initial_globals 6 SOUND_KICK).1 = initial_globals
    ∧ (set_channel_mapping initial_globals 0 8).1 = initial_globals :=
  ⟨((set_channel_mapping_validates initial_globals 0 SOUND_HIGH_TOM).2.1 0 (by decide)
      (by decide) (by decide)).1,
   (set_channel_mapping_validates initial_globals 6 SOUND_KICK).1 (Or.inl (by decide)),
   (set_channel_mapping_validates initial_globals 0 8).1 (Or.inr (by decide))⟩

/-! ## Lemmas on the polling loops -/

theorem get_result_poll_never_ready {σ : Type} (io : I2C σ) (file start_time : Int) (n : Nat) :
    ∀ (fuel : Nat) (s : σ), n < fuel →
      never_ready io file start_time (fun x => io.usleep x 100) n s →
      (ADS1115_get_result_poll io file start_time fuel s).ret = Poll.failed
      ∧ (ADS1115_get_result_poll io file start_time fuel s).trace
          = get_result_waiting file n
              ++ [Call.write file [1], Call.read file 2, Call.clock,
                  Call.perror "Timeout waiting for conversion"] := by
  induction n with
  | zero =>
    intro fuel s hf h
    obtain ⟨k, rfl⟩ : ∃ k, fuel = k + 1 := ⟨fuel - 1, by omega⟩
    obtain ⟨h1, h2, h3, h4⟩ := h
    unfold ADS1115_get_result_poll
    simp only [h1, h2, h3, h4, ne_eq, not_true_eq_false, if_false, if_true, get_result_waiting]
    simp
  | succ n ih =>
    intro fuel s hf h
    obtain ⟨k, rfl⟩ : ∃ k, fuel = k + 1 := ⟨fuel - 1, by omega⟩
    obtain ⟨h1, h2, h3, h4, h5⟩ := h
    have hk : n < k := by omega
    obtain ⟨i1, i2⟩ := ih k _ hk h5
    unfold ADS1115_get_result_poll
    simp only [h1, h2, h3, h4, ne_eq, not_true_eq_false, if_false, i1, i2, get_result_waiting]
    simp

theorem read_poll_never_ready {σ : Type} (io : I2C σ) (file start_time : Int) (n : Nat) :
    ∀ (fuel : Nat) (s : σ), n < fuel →
      never_ready io file start_time (fun x => x) n s →
      (ADS1115_read_poll io file start_time fuel s).ret = Poll.failed
      ∧ (ADS1115_read_poll io file start_time fuel s).trace
          = read_waiting file n
              ++ [Call.write file [1], Call.read file 2, Call.clock,
                  Call.perror "Timeout waiting for conversion"] := by
  induction n with
  | zero =>
    intro fuel s hf h
    obtain ⟨k, rfl⟩ : ∃ k, fuel = k + 1 := ⟨fuel - 1, by omega⟩
    obtain ⟨h1, h2, h3, h4⟩ := h
    unfold ADS1115_read_poll
    simp only [h1, h2, h3, h4, ne_eq, not_true_eq_false, if_false, if_true, read_waiting]
    simp
  | succ n ih =>
    intro fuel s hf h
    obtain ⟨k, rfl⟩ : ∃ k, fuel = k + 1 := ⟨fuel - 1, by omega⟩
    obtain ⟨h1, h2, h3, h4, h5⟩ := h
    have hk : n < k := by omega
    obtain ⟨i1, i2⟩ := ih k _ hk h5
    unfold ADS1115_read_poll
    simp only [h1, h2, h3, h4, ne_eq, not_true_eq_false, if_false, i1, i2, read_waiting]
    simp

theorem get_result_waiting_no_pointer (file : Int) (n : Nat) :
    Call.write file [0] ∉ get_result_waiting file n := by
  induction n with
  | zero => simp [get_result_waiting]
  | succ n ih => simp [get_result_waiting, ih]

theorem read_waiting_no_pointer (file : Int) (n : Nat) :
    Call.write file [0] ∉ read_waiting file n := by
  induction n with
  | zero => simp [read_waiting]
  | succ n ih => simp [read_waiting, ih]

/-- C11, refuted as stated: on the scripted bus a call of `ADS1115_get_result` (and of
`ADS1115_read`) whose device never reports ready times out and returns -1; a call whose
conversion succeeds with the result bytes 0xFF, 0xFF makes no error report and returns
-1 as well, so the value returned on timeout is one a successful conversion returns. -/
theorem timeout_value_is_a_sample :
    (ADS1115_get_result script 10 1 3 silent).ret = some (-1)
    ∧ (ADS1115_get_result script 10 1 3 silent).trace.getLast?
        = some (Call.perror "Timeout waiting for conversion")
    ∧ (ADS1115_get_result script 10 1 3 (answering 0xFF 0xFF)).ret = some (-1)
    ∧ (ADS1115_get_result script 10 1 3 (answering 0xFF 0xFF)).trace
        = [Call.ioctl 3 0x48, Call.clock, Call.write 3 [1], Call.read 3 2, Call.write 3 [0],
           Call.read 3 2]
    ∧ (ADS1115_read script 10 1 3 silent).ret = some (-1)
    ∧ (ADS1115_read script 10 1 3 silent).trace.getLast?
        = some (Call.perror "Timeout waiting for conversion")
    ∧ (ADS1115_read script 10 1 3 (answering 0xFF 0xFF)).ret = some (-1)
    ∧ (ADS1115_read script 10 1 3 (answering 0xFF 0xFF)).trace
        = [Call.ioctl 3 0x48, Call.write 3 [1, 0xD1, 0xE3], Call.clock, Call.write 3 [1],
           Call.read 3 2, Call.write 3 [0], Call.read 3 2] := by
  decide

/-- C11, amended: a call of `ADS1115_get_result` or `ADS1115_read` with enough fuel for
`n + 1` polls, in which the device is selected (and, for `ADS1115_read`, the
configuration is written) and every poll of the config register returns a first byte
with the ready bit clear until the `n + 1`-th poll reads the clock more than 100 whole
milliseconds after the start, returns -1 after reporting the timeout; its calls are the
`n` unfinished polls and the last poll, and the result register is never pointed to, so
never read. The value -1 is also the sample composed from the result bytes 0xFF, 0xFF,
which both functions return for a successful conversion of those bytes. -/
theorem timeout_returns_minus_one {σ : Type} (io : I2C σ) (n fuel : Nat) (channel file : Int)
    (s : σ) (hfuel : n < fuel) :
    (¬ (io.ioctl s file (ADS1115_get_result_select channel).2.1).2 < 0 →
      never_ready io file
        (io.clock (io.ioctl s file (ADS1115_get_result_select channel).2.1).1).2
        (fun x => io.usleep x 100) n
        (io.clock (io.ioctl s file (ADS1115_get_result_select channel).2.1).1).1 →
      (ADS1115_get_result io fuel channel file s).ret = some (-1)
      ∧ (ADS1115_get_result io fuel channel file s).trace
          = (ADS1115_get_result_select channel).2.2
              ++ [Call.ioctl file (ADS1115_get_result_select channel).2.1, Call.clock]
              ++ get_result_waiting file n
              ++ [Call.write file [1], Call.read file 2, Call.clock,
                  Call.perror "Timeout waiting for conversion"]
      ∧ Call.write file [0] ∉ (ADS1115_get_result io fuel channel file s).trace)
    ∧ (¬ (io.ioctl s file (ADS1115_read_select channel).2.1).2 < 0 →
      (io.write (io.ioctl s file (ADS1115_read_select channel).2.1).1 file
          (config_bytes (ADS1115_read_select channel).1)).2 = 3 →
      never_ready io file
        (io.clock (io.write (io.ioctl s file (ADS1115_read_select channel).2.1).1 file
          (config_bytes (ADS1115_read_select channel).1)).1).2
        (fun x => x) n
        (io.clock (io.write (io.ioctl s file (ADS1115_read_select channel).2.1).1 file
          (config_bytes (ADS1115_read_select channel).1)).1).1 →
      (ADS1115_read io fuel channel file s).ret = some (-1)
      ∧ (ADS1115_read io fuel channel file s).trace
          = (ADS1115_read_select channel).2.2
              ++ [Call.ioctl file (ADS1115_read_select channel).2.1,
                  Call.write file (config_bytes (ADS1115_read_select channel).1), Call.clock]
              ++ read_waiting file n
              ++ [Call.write file [1], Call.read file 2, Call.clock,
                  Call.perror "Timeout waiting for conversion"]
      ∧ Call.write file [0] ∉ (ADS1115_read io fuel channel file s).trace)
    ∧ sample_of_bytes 0xFF 0xFF = -1
    ∧ (∀ (k : Nat) (ch f : Int),
        (ADS1115_get_result script (k + 1) ch f (answering 0xFF 0xFF)).ret = some (-1)
        ∧ (ADS1115_read script (k + 1) ch f (answering 0xFF 0xFF)).ret = some (-1)) := by
  have hs : sample_of_bytes 0xFF 0xFF = -1 := by decide
  have hsel1 : ∀ c, Call.write file [0] ∉ (ADS1115_get_result_select c).2.2 := by
    intro c
    unfold ADS1115_get_result_select
    simp only
    split_ifs <;> simp
  have hsel3 : ∀ c, Call.write file [0] ∉ (ADS1115_read_select c).2.2 := by
    intro c
    unfold ADS1115_read_select
    simp only
    split_ifs <;> simp
  have hcfg : ∀ c, Call.write file [0] ≠ Call.write file (config_bytes c) := by
    intro c h
    have := congrArg (fun x => match x with | Call.write _ b => b.length | _ => 0) h
    simp [config_bytes] at this
  refine ⟨?_, ?_, hs, ?_⟩
  · intro hio hn
    obtain ⟨p1, p2⟩ := get_result_poll_never_ready io file _ n fuel _ hfuel hn
    have htr : (ADS1115_get_result io fuel channel file s).trace
        = (ADS1115_get_result_select channel).2.2
            ++ [Call.ioctl file (ADS1115_get_result_select channel).2.1, Call.clock]
            ++ get_result_waiting file n
            ++ [Call.write file [1], Call.read file 2, Call.clock,
                Call.perror "Timeout waiting for conversion"] := by
      unfold ADS1115_get_result
      simp only [hio, if_false, p1, p2, List.append_assoc]
    refine ⟨?_, htr, ?_⟩
    · unfold ADS1115_get_result
      simp only [hio, if_false, p1]
    · rw [htr]
      simp [hsel1, get_result_waiting_no_pointer]
  · intro hio hw hn
    obtain ⟨p1, p2⟩ := read_poll_never_ready io file _ n fuel _ hfuel hn
    have hw2 : ¬ (io.write (io.ioctl s file (ADS1115_read_select channel).2.1).1 file
          (config_bytes (ADS1115_read_select channel).1)).2 ≠ 3 := by
      rw [hw]; simp
    have htr : (ADS1115_read io fuel channel file s).trace
        = (ADS1115_read_select channel).2.2
            ++ [Call.ioctl file (ADS1115_read_select channel).2.1,
                Call.write file (config_bytes (ADS1115_read_select channel).1), Call.clock]
            ++ read_waiting file n
            ++ [Call.write file [1], Call.read file 2, Call.clock,
                Call.perror "Timeout waiting for conversion"] := by
      unfold ADS1115_read
      unfold config_bytes at hw2 p1 p2 ⊢
      simp only [hio, if_false, hw2, p1, p2, List.append_assoc]
    refine ⟨?_, htr, ?_⟩
    · unfold ADS1115_read
      unfold config_bytes at hw2 p1
      simp only [hio, if_false, hw2, p1]
    · rw [htr]
      have := hcfg (ADS1115_read_select channel).1
      simp [hsel3, read_waiting_no_pointer, this]
  · intro k ch f
    exact ⟨by rw [get_result_answering, hs], by rw [read_answering, hs]⟩

/-- C11 amended, on the scripted bus whose device never reports ready: the third poll
reads the clock 150 ms after the start, and the call returns -1 without pointing to the
result register. -/
theorem timeout_returns_minus_one_witness :
    2 < 10
    ∧ (ADS1115_get_result script 10 1 3 silent).ret = some (-1)
    ∧ Call.write 3 [0] ∉ (ADS1115_get_result script 10 1 3 silent).trace
    ∧ (ADS1115_read script 10 1 3 silent).ret = some (-1) :=
  ⟨by decide,
   ((timeout_returns_minus_one script 2 10 1 3 silent (by decide)).1 (by decide)
      (by decide)).1,
   ((timeout_returns_minus_one script 2 10 1 3 silent (by decide)).1 (by decide)
      (by decide)).2.2,
   ((timeout_returns_minus_one script 2 10 1 3 silent (by decide)).2.1 (by decide)
      (by decide) (by decide)).1⟩

theorem not_timed_out (c st : Int) (h : ¬ Int.tdiv ((c - st) * 1000) CLOCKS_PER_SEC > 100)
    (h0 : st ≤ c) : c - st ≤ 100999 := by
  unfold CLOCKS_PER_SEC at h
  rw [Int.tdiv_eq_ediv (by omega) (by decide)] at h
  omega

/-- With an advancing clock the loop of `ADS1115_get_result` ends within its fuel when the
fuel exceeds the ticks left until the timeout. -/
theorem get_result_poll_ends {σ : Type} (io : I2C σ) (time : σ → Int)
    (hc : advancing_clock io time) (file st : Int) :
    ∀ (fuel : Nat) (s : σ), st ≤ time s → 0 < fuel → 101000 - (time s - st) < (fuel : Int) →
      (ADS1115_get_result_poll io file st fuel s).ret ≠ Poll.out_of_fuel := by
  intro fuel
  induction fuel with
  | zero => intro s _ h; exact absurd h (Nat.lt_irrefl 0)
  | succ k ih =>
    intro s hst _ hfuel
    unfold ADS1115_get_result_poll
    simp only
    split_ifs with h1 h2 h3 h4
    · simp
    · simp
    · simp
    · simp
    · have t1 := hc.write_mono s file [1]
      have t2 := hc.read_mono (io.write s file [1]).1 file 2
      have t3 := hc.clock_later (io.read (io.write s file [1]).1 file 2).1
      have t4 := hc.clock_kept (io.read (io.write s file [1]).1 file 2).1
      have t5 := hc.usleep_mono (io.clock (io.read (io.write s file [1]).1 file 2).1).1 100
      have hb := not_timed_out _ _ h4 (by omega)
      have hk : 0 < k := by omega
      exact ih _ (by omega) hk (by push_cast at hfuel ⊢; omega)

/-- With an advancing clock the loop of `ADS1115_read` ends within its fuel when the fuel
exceeds the ticks left until the timeout. -/
theorem read_poll_ends {σ : Type} (io : I2C σ) (time : σ → Int)
    (hc : advancing_clock io time) (file st : Int) :
    ∀ (fuel : Nat) (s : σ), st ≤ time s → 0 < fuel → 101000 - (time s - st) < (fuel : Int) →
      (ADS1115_read_poll io file st fuel s).ret ≠ Poll.out_of_fuel := by
  intro fuel
  induction fuel with
  | zero => intro s _ h; exact absurd h (Nat.lt_irrefl 0)
  | succ k ih =>
    intro s hst _ hfuel
    unfold ADS1115_read_poll
    simp only
    split_ifs with h1 h2 h3 h4
    · simp
    · simp
    · simp
    · simp
    · have t1 := hc.write_mono s file [1]
      have t2 := hc.read_mono (io.write s file [1]).1 file 2
      have t3 := hc.clock_later (io.read (io.write s file [1]).1 file 2).1
      have t4 := hc.clock_kept (io.read (io.write s file [1]).1 file 2).1
      have hb := not_timed_out _ _ h4 (by omega)
      have hk : 0 < k := by omega
      exact ih _ (by omega) hk (by push_cast at hfuel ⊢; omega)

/-- With an advancing clock, 101001 polls are enough for `ADS1115_get_result` to
return. -/
theorem get_result_returns {σ : Type} (io : I2C σ) (time : σ → Int)
    (hc : advancing_clock io time) (fuel : Nat) (hfuel : 101001 ≤ fuel) (channel file : Int)
    (s : σ) : ∃ v, (ADS1115_get_result io fuel channel file s).ret = some v := by
  unfold ADS1115_get_result
  simp only
  split_ifs with h1
  · exact ⟨_, rfl⟩
  · have t1 := hc.clock_kept (io.ioctl s file (ADS1115_get_result_select channel).2.1).1
    have hp := get_result_poll_ends io time hc file
      (io.clock (io.ioctl s file (ADS1115_get_result_select channel).2.1).1).2 fuel
      (io.clock (io.ioctl s file (ADS1115_get_result_select channel).2.1).1).1 t1 (by omega)
      (by omega)
    split
    · rename_i h
      exact absurd h hp
    · exact ⟨_, rfl⟩
    · exact ⟨_, rfl⟩

theorem ticking_advances : advancing_clock ticking (fun s => s) where
  clock_later := fun s => by simp [ticking]
  clock_kept := fun s => by simp [ticking]
  ioctl_mono := fun s f a => by simp [ticking]
  write_mono := fun s f b => by simp [ticking]
  read_mono := fun s f n => by simp [ticking]
  usleep_mono := fun s u => by simp [ticking]
  close_mono := fun s f => by simp [ticking]

theorem ops_of_start (f f2 addr : Int) (hi lo : Nat) (t : List Call) :
    ops_of (Call.ioctl f addr :: Call.write f2 [1, hi, lo] :: t)
      = Op.start (4 * (addr - DEFAULT_ADS1115_ADDRESS) + (((hi >>> 4) &&& 3 : Nat) : Int))
          :: ops_of t := rfl

theorem ops_of_fetch (f addr : Int) (t : List Call) :
    ops_of (Call.ioctl f addr :: Call.clock :: t) = Op.fetch addr :: ops_of t := rfl

theorem ops_of_skip (e : Call) (t : List Call) (h : ∀ f a, e ≠ Call.ioctl f a) :
    ops_of (e :: t) = ops_of t := by
  cases e with
  | ioctl f a => exact absurd rfl (h f a)
  | write f b => rfl
  | read f n => rfl
  | clock => rfl
  | usleep u => rfl
  | close f => rfl
  | printf_invalid_channel => rfl
  | printf_failed_device a => rfl
  | printf_ending => rfl
  | perror m => rfl

theorem ops_of_no_ioctl (t rest : List Call) (h : ∀ f a, Call.ioctl f a ∉ t) :
    ops_of (t ++ rest) = ops_of rest := by
  induction t with
  | nil => rfl
  | cons e t ih =>
    have ht : ∀ f a, Call.ioctl f a ∉ t := fun f a hm => h f a (List.mem_cons_of_mem _ hm)
    have he : ∀ f a, e ≠ Call.ioctl f a := fun f a heq => h f a (by rw [heq]; simp)
    rw [List.cons_append, ops_of_skip e _ he]
    exact ih ht

theorem get_result_poll_no_ioctl {σ : Type} (io : I2C σ) (file st : Int) (fuel : Nat) :
    ∀ (s : σ) (f a : Int), Call.ioctl f a ∉ (ADS1115_get_result_poll io file st fuel s).trace := by
  induction fuel with
  | zero => intro s f a; simp [ADS1115_get_result_poll]
  | succ k ih =>
    intro s f a
    unfold ADS1115_get_result_poll
    simp only
    split_ifs
    · simp
    · simp
    · simp
    · simp
    · simp [ih]

theorem read_conversion_no_ioctl {σ : Type} (io : I2C σ) (file : Int) (s : σ) (f a : Int) :
    Call.ioctl f a ∉ (read_conversion io file s).trace := by
  unfold read_conversion
  simp only
  split_ifs <;> simp

theorem config_decode (channel : Int) (h0 : 0 ≤ channel) (h7 : channel ≤ 7) :
    ∃ hi lo, config_bytes (ADS1115_start_reading_select channel).1 = [1, hi, lo]
      ∧ 4 * ((ADS1115_start_reading_select channel).2.1 - DEFAULT_ADS1115_ADDRESS)
          + (((hi >>> 4) &&& 3 : Nat) : Int) = channel
      ∧ (ADS1115_start_reading_select channel).2.2 = [] := by
  interval_cases channel
  · exact ⟨0xC1, 0xE3, by decide, by decide, by decide⟩
  · exact ⟨0xD1, 0xE3, by decide, by decide, by decide⟩
  · exact ⟨0xE1, 0xE3, by decide, by decide, by decide⟩
  · exact ⟨0xF1, 0xE3, by decide, by decide, by decide⟩
  · exact ⟨0xC1, 0xE3, by decide, by decide, by decide⟩
  · exact ⟨0xD1, 0xE3, by decide, by decide, by decide⟩
  · exact ⟨0xE1, 0xE3, by decide, by decide, by decide⟩
  · exact ⟨0xF1, 0xE3, by decide, by decide, by decide⟩

/-- The operation shown by a call of `ADS1115_start_reading` whose device is selected. -/
theorem ops_of_start_reading {σ : Type} (io : I2C σ) (channel file : Int) (s : σ)
    (rest : List Call) (h0 : 0 ≤ channel) (h7 : channel ≤ 7)
    (hio : ¬ (io.ioctl s file (ADS1115_start_reading_select channel).2.1).2 < 0) :
    ops_of ((ADS1115_start_reading io channel file s).trace ++ rest)
      = Op.start channel :: ops_of rest := by
  obtain ⟨hi, lo, hcfg, hdec, hnil⟩ := config_decode channel h0 h7
  unfold config_bytes at hcfg
  unfold ADS1115_start_reading
  simp only [hio, if_false, hnil, List.nil_append, hcfg]
  split_ifs
  · simp only [List.cons_append, List.nil_append, List.append_assoc, ADS1115_exit]
    rw [ops_of_start, hdec, ops_of_skip _ _ (by simp), ops_of_skip _ _ (by simp),
      ops_of_skip _ _ (by simp)]
  · simp only [List.cons_append, List.nil_append, List.append_assoc]
    rw [ops_of_start, hdec]

/-- The operation shown by a call of `ADS1115_get_result` whose device is selected. -/
theorem ops_of_get_result {σ : Type} (io : I2C σ) (fuel : Nat) (channel file : Int) (s : σ)
    (rest : List Call) (h0 : 0 ≤ channel) (h7 : channel ≤ 7)
    (hio : ¬ (io.ioctl s file (ADS1115_get_result_select channel).2.1).2 < 0) :
    ops_of ((ADS1115_get_result io fuel channel file s).trace ++ rest)
      = Op.fetch (ADS1115_get_result_select channel).2.1 :: ops_of rest := by
  have hnil : (ADS1115_get_result_select channel).2.2 = [] := by
    have hr : ¬ (channel < 0 ∨ channel > 7) := by omega
    unfold ADS1115_get_result_select
    simp only [hr, if_false]
    split_ifs <;> rfl
  have hp := get_result_poll_no_ioctl io file
    (io.clock (io.ioctl s file (ADS1115_get_result_select channel).2.1).1).2 fuel
    (io.clock (io.ioctl s file (ADS1115_get_result_select channel).2.1).1).1
  unfold ADS1115_get_result
  simp only [hio, if_false, hnil, List.nil_append]
  split
  · simp only [List.cons_append, List.nil_append, List.append_assoc]
    rw [ops_of_fetch, ops_of_no_ioctl _ _ hp]
  · simp only [List.cons_append, List.nil_append, List.append_assoc]
    rw [ops_of_fetch, ops_of_no_ioctl _ _ hp]
  · simp only [List.cons_append, List.nil_append, List.append_assoc]
    rw [ops_of_fetch, ops_of_no_ioctl _ _ hp,
      ops_of_no_ioctl _ _ (read_conversion_no_ioctl io file _)]

theorem finRange_three : List.finRange 3 = [0, 1, 2] := by decide

theorem sampling_selects (i : Fin 3) :
    (ADS1115_get_result_select ((i.val : Int) + 1)).2.1 = 0x48
    ∧ (ADS1115_get_result_select ((i.val : Int) + 5)).2.1 = 0x49
    ∧ (ADS1115_start_reading_select (i.val : Int)) = ((i.val : Int), 0x48, [])
    ∧ (ADS1115_start_reading_select ((i.val : Int) + 4)) = ((i.val : Int), 0x49, []) := by
  revert i
  decide

theorem sample_iteration_prior {σ : Type} (io : I2C σ) (fuel : Nat) (file : Int)
    (acc : Out σ (Option (Fin 6 → Int))) (i : Fin 3) (v : Fin 6 → Int)
    (h : (sample_iteration io fuel file acc i).ret = some v) : ∃ w, acc.ret = some w := by
  cases hr : acc.ret with
  | none =>
    unfold sample_iteration at h
    simp only [hr] at h
    cases h
  | some w => exact ⟨w, rfl⟩

/-- The operations of one iteration of the sampling loop on a bus that acknowledges
every device select. -/
theorem sample_iteration_ops {σ : Type} (io : I2C σ) (fuel : Nat) (file : Int)
    (hio : ∀ s f a, ¬ (io.ioctl s f a).2 < 0)
    (acc : Out σ (Option (Fin 6 → Int))) (i : Fin 3) (l : List Op)
    (hacc : ∀ rest, ops_of (acc.trace ++ rest) = l ++ ops_of rest)
    (v : Fin 6 → Int) (h : (sample_iteration io fuel file acc i).ret = some v) :
    ∀ rest, ops_of ((sample_iteration io fuel file acc i).trace ++ rest)
      = (l ++ [Op.start (i.val : Int), Op.start ((i.val : Int) + 4), Op.fetch 0x48,
               Op.fetch 0x49]) ++ ops_of rest := by
  intro rest
  have hi := i.isLt
  obtain ⟨g1, g2, _, _⟩ := sampling_selects i
  unfold sample_iteration at h ⊢
  cases hr : acc.ret with
  | none =>
    simp only [hr] at h
    cases h
  | some w =>
    simp only [hr] at h ⊢
    split at h
    · cases h
    · rename_i v1 hc
      split at h
      · cases h
      · rename_i v2 hd
        simp only [hc, hd, List.append_assoc]
        rw [hacc, ops_of_start_reading io _ file _ _ (by omega) (by omega) (hio _ _ _),
          ops_of_start_reading io _ file _ _ (by omega) (by omega) (hio _ _ _),
          ops_of_get_result io fuel _ file _ _ (by omega) (by omega) (hio _ _ _),
          ops_of_get_result io fuel _ file _ _ (by omega) (by omega) (hio _ _ _), g1, g2]
        simp

/-- One iteration of the sampling loop produces its two samples when the clock advances
and the fuel allows 101001 polls. -/
theorem sample_iteration_returns {σ : Type} (io : I2C σ) (time : σ → Int)
    (hc : advancing_clock io time) (fuel : Nat) (hfuel : 101001 ≤ fuel) (file : Int)
    (acc : Out σ (Option (Fin 6 → Int))) (i : Fin 3) (w : Fin 6 → Int)
    (hacc : acc.ret = some w) :
    ∃ v, (sample_iteration io fuel file acc i).ret = some v := by
  unfold sample_iteration
  simp only [hacc]
  obtain ⟨v1, h1⟩ := get_result_returns io time hc fuel hfuel ((i.val : Int) + 1) file
    (ADS1115_start_reading io ((i.val : Int) + 4) file
      (ADS1115_start_reading io (i.val : Int) file acc.state).state).state
  simp only [h1]
  obtain ⟨v2, h2⟩ := get_result_returns io time hc fuel hfuel ((i.val : Int) + 5) file
    (ADS1115_get_result io fuel ((i.val : Int) + 1) file
      (ADS1115_start_reading io ((i.val : Int) + 4) file
        (ADS1115_start_reading io (i.val : Int) file acc.state).state).state).state
  simp only [h2]
  exact ⟨_, rfl⟩

/-- C12, refuted as stated: on the scripted bus one run of the sampling loop starts
conversions for the logical channels 0, 4, 1, 5, 2, 6 only, fetching two results after
each pair; channels 3 and 7 are never started. -/
theorem sampling_skips_channels_three_and_seven :
    ops_of (sample_values script 10 3 (fun _ => 0) (answering 2 88)).trace
      = [Op.start 0, Op.start 4, Op.fetch 0x48, Op.fetch 0x49,
         Op.start 1, Op.start 5, Op.fetch 0x48, Op.fetch 0x49,
         Op.start 2, Op.start 6, Op.fetch 0x48, Op.fetch 0x49]
    ∧ Op.start 3 ∉ ops_of (sample_values script 10 3 (fun _ => 0) (answering 2 88)).trace
    ∧ Op.start 7 ∉ ops_of (sample_values script 10 3 (fun _ => 0) (answering 2 88)).trace
    ∧ ((sample_values script 10 3 (fun _ => 0) (answering 2 88)).ret.map
        (fun values => List.ofFn values)) = some [600, 600, 600, 600, 600, 600] := by
  decide

/-- C12, amended: on a bus that acknowledges every device select and whose clock
advances, one run of the sampling loop (with fuel for 101001 polls per result) produces
the six samples of `values` and shows these operations in this order: for `i` = 0, 1, 2
a conversion is started for channel `i` and for channel `i + 4` back to back, then a
result is fetched from the device at 0x48 and one from the device at 0x49. Conversions
are thus started exactly once for each of the channels 0, 4, 1, 5, 2, 6, and never for
channels 3 and 7. -/
theorem sampling_order {σ : Type} (io : I2C σ) (time : σ → Int) (fuel : Nat) (file : Int)
    (values0 : Fin 6 → Int) (s : σ) (hclock : advancing_clock io time)
    (hio : ∀ s f a, ¬ (io.ioctl s f a).2 < 0) (hfuel : 101001 ≤ fuel) :
    (∃ values, (sample_values io fuel file values0 s).ret = some values)
    ∧ ops_of (sample_values io fuel file values0 s).trace
        = [Op.start 0, Op.start 4, Op.fetch 0x48, Op.fetch 0x49,
           Op.start 1, Op.start 5, Op.fetch 0x48, Op.fetch 0x49,
           Op.start 2, Op.start 6, Op.fetch 0x48, Op.fetch 0x49] := by
  have e : sample_values io fuel file values0 s
      = sample_iteration io fuel file (sample_iteration io fuel file (sample_iteration io fuel file
          { state := s, trace := [], ret := some values0 } 0) 1) 2 := by
    unfold sample_values
    rw [finRange_three]
    rfl
  obtain ⟨w0, r0⟩ := sample_iteration_returns io time hclock fuel hfuel file
    { state := s, trace := [], ret := some values0 } 0 values0 rfl
  obtain ⟨w1, r1⟩ := sample_iteration_returns io time hclock fuel hfuel file _ 1 w0 r0
  obtain ⟨w2, r2⟩ := sample_iteration_returns io time hclock fuel hfuel file _ 2 w1 r1
  have o0 := sample_iteration_ops io fuel file hio
    { state := s, trace := [], ret := some values0 } 0 [] (fun rest => rfl) w0 r0
  have o1 := sample_iteration_ops io fuel file hio _ 1 _ o0 w1 r1
  have o2 := sample_iteration_ops io fuel file hio _ 2 _ o1 w2 r2
  rw [e]
  refine ⟨⟨w2, r2⟩, ?_⟩
  have := o2 []
  rw [List.append_nil] at this
  rw [this]
  rfl

/-- C12 amended, on the bus whose state is its clock. -/
theorem sampling_order_witness :
    advancing_clock ticking (fun s => s)
    ∧ (∀ s f a, ¬ (ticking.ioctl s f a).2 < 0)
    ∧ 101001 ≤ 101001
    ∧ ops_of (sample_values ticking 101001 3 (fun _ => 0) 0).trace
        = [Op.start 0, Op.start 4, Op.fetch 0x48, Op.fetch 0x49,
           Op.start 1, Op.start 5, Op.fetch 0x48, Op.fetch 0x49,
           Op.start 2, Op.start 6, Op.fetch 0x48, Op.fetch 0x49] :=
  ⟨ticking_advances, fun s f a => by simp [ticking], by decide,
   (sampling_order ticking (fun s => s) 101001 3 (fun _ => 0) 0 ticking_advances
      (fun s f a => by simp [ticking]) (by decide)).2⟩

/-! ## Lemmas on series of calls -/

theorem edges_of_process_zero (g : Globals) (values : Fin 6 → Int) :
    edges_of 0 (process_ads_triggers g values).2 = [] := by
  rw [process_effects]
  have e5 : iteration_effects g values 5 = iteration_effects g values 5 ++ [] := by simp
  rw [e5]
  simp only [List.append_assoc]
  rw [edges_of_iteration_append 0 1 (by decide), edges_of_iteration_append 0 2 (by decide),
    edges_of_iteration_append 0 3 (by decide), edges_of_iteration_append 0 4 (by decide),
    edges_of_iteration_append 0 5 (by decide)]
  simp [edges_of]

/-- The events of one call for any channel, with the flag after the call. -/
theorem edges_and_flag (ch : Fin 6) (g : Globals) (values : Fin 6 → Int) :
    (edges_of ch (process_ads_triggers g values).2 = [Edge.Trigger]
      ∧ g.ads_triggered ch = false
      ∧ (process_ads_triggers g values).1.ads_triggered ch = true)
    ∨ (edges_of ch (process_ads_triggers g values).2 = [Edge.Release]
      ∧ g.ads_triggered ch = true
      ∧ (process_ads_triggers g values).1.ads_triggered ch = false)
    ∨ (edges_of ch (process_ads_triggers g values).2 = []
      ∧ (process_ads_triggers g values).1.ads_triggered ch = g.ads_triggered ch) := by
  by_cases h0 : ch = 0
  · subst h0
    right; right
    exact ⟨edges_of_process_zero g values, by rw [process_flag]; simp⟩
  · rw [edges_of_process ch h0, process_flag]
    simp only [h0, if_false, next_flag]
    by_cases hr : rising_edge (g.ads_triggered ch) (values ch) (g.prev_ads_values ch)
    · left
      simp only [hr, if_true]
      exact ⟨trivial, hr.1, trivial⟩
    · by_cases hf : falling_edge (g.ads_triggered ch) (values ch) (g.prev_ads_values ch)
      · right; left
        simp only [hr, hf, if_true, if_false]
        exact ⟨trivial, hf.1, trivial⟩
      · right; right
        simp only [hr, hf, if_false]
        exact ⟨trivial, trivial⟩

theorem successive_calls_alternate (ch : Fin 6) (vs : List (Fin 6 → Int)) :
    ∀ g : Globals, ∃ n,
      ((successive_calls g vs).map (edges_of ch)).flatten = alternation (g.ads_triggered ch) n := by
  induction vs with
  | nil => intro g; exact ⟨0, rfl⟩
  | cons v vs ih =>
    intro g
    obtain ⟨n, hn⟩ := ih (process_ads_triggers g v).1
    simp only [successive_calls, List.map_cons, List.flatten_cons]
    rcases edges_and_flag ch g v with ⟨e, f0, f1⟩ | ⟨e, f0, f1⟩ | ⟨e, f1⟩
    · refine ⟨n + 1, ?_⟩
      rw [e, hn, f1, f0]
      rfl
    · refine ⟨n + 1, ?_⟩
      rw [e, hn, f1, f0]
      rfl
    · refine ⟨n, ?_⟩
      rw [e, hn, f1]
      rfl

/-- C13. Event alternation: for every ADS channel and every series of calls of
`process_ads_triggers` from the initial detector state, the events emitted for the
channel, in order, are the first terms of Trigger, Release, Trigger, ...; and in any
call from any state, a Trigger is emitted for the channel only if the call changes its
flag from false to true, a Release only if the call changes it from true to false. -/
theorem events_alternate (mapping : Fin 6 → Int) (ch : Fin 6) :
    (∀ vs : List (Fin 6 → Int), ∃ n,
      ((successive_calls (globals_at_load mapping) vs).map (edges_of ch)).flatten
        = alternation false n)
    ∧ (∀ (g : Globals) (values : Fin 6 → Int),
        (Edge.Trigger ∈ edges_of ch (process_ads_triggers g values).2 →
          g.ads_triggered ch = false
          ∧ (process_ads_triggers g values).1.ads_triggered ch = true)
        ∧ (Edge.Release ∈ edges_of ch (process_ads_triggers g values).2 →
          g.ads_triggered ch = true
          ∧ (process_ads_triggers g values).1.ads_triggered ch = false)) := by
  constructor
  · intro vs
    exact successive_calls_alternate ch vs (globals_at_load mapping)
  · intro g values
    rcases edges_and_flag ch g values with ⟨e, f0, f1⟩ | ⟨e, f0, f1⟩ | ⟨e, _⟩
    · rw [e]
      exact ⟨fun _ => ⟨f0, f1⟩, fun h => by simp at h⟩
    · rw [e]
      exact ⟨fun h => by simp at h, fun _ => ⟨f0, f1⟩⟩
    · rw [e]
      exact ⟨fun h => by simp at h, fun h => by simp at h⟩

/-- C14, refuted as stated: from the initial globals, a call in which ADS channel 0 reads
600 leaves `prev_ads_values[0]` at 0. -/
theorem previous_sample_of_channel_zero_kept :
    values_of [600, 0, 0, 0, 0, 0] 0 = 600
    ∧ (process_ads_triggers initial_globals (values_of [600, 0, 0, 0, 0, 0])).1.prev_ads_values 0
        = 0 := by
  decide

/-- C14, amended: for every call `process_ads_triggers(t, values)` and every prior
detector state, after the call `prev_ads_values[ch]` equals `values[ch]` for every ADS
channel `ch` in 1..5, whether or not a transition occurred; for ADS channel 0, which the
loop skips, `prev_ads_values[0]` keeps its prior value. -/
theorem previous_sample_stored (g : Globals) (values : Fin 6 → Int) :
    (∀ ch : Fin 6, ch ≠ 0 → (process_ads_triggers g values).1.prev_ads_values ch = values ch)
    ∧ (process_ads_triggers g values).1.prev_ads_values 0 = g.prev_ads_values 0 := by
  constructor
  · intro ch hch
    rw [process_prev]
    simp [hch]
  · rw [process_prev]
    simp

/-- C15. Idempotence of the edge detector: for every ADS channel and every detector
state, when `process_ads_triggers` is called twice in a row with the same sample for the
channel, the second call emits no event for the channel and leaves its stored sample and
flag unchanged. In particular, from a triggered state (flag set, previous sample above
500) of one of the channels 1..5, a first sample equal to 500 releases the channel
(500 counts as not triggered) and its repeat produces no new event. -/
theorem edge_detector_idempotent (g : Globals) (v1 v2 : Fin 6 → Int) (ch : Fin 6)
    (hs : v2 ch = v1 ch) :
    edges_of ch (process_ads_triggers (process_ads_triggers g v1).1 v2).2 = []
    ∧ (process_ads_triggers (process_ads_triggers g v1).1 v2).1.prev_ads_values ch
        = (process_ads_triggers g v1).1.prev_ads_values ch
    ∧ (process_ads_triggers (process_ads_triggers g v1).1 v2).1.ads_triggered ch
        = (process_ads_triggers g v1).1.ads_triggered ch
    ∧ (ch ≠ 0 → g.ads_triggered ch = true → g.prev_ads_values ch > 500 → v1 ch = 500 →
        edges_of ch (process_ads_triggers g v1).2 = [Edge.Release]
        ∧ (process_ads_triggers g v1).1.ads_triggered ch = false) := by
  by_cases h0 : ch = 0
  · subst h0
    refine ⟨edges_of_process_zero _ _, ?_, ?_, fun h => absurd rfl h⟩
    · rw [process_prev]; simp
    · rw [process_flag]; simp
  · have hp : (process_ads_triggers g v1).1.prev_ads_values ch = v1 ch := by
      rw [process_prev]; simp [h0]
    have hnr : ¬ rising_edge ((process_ads_triggers g v1).1.ads_triggered ch) (v2 ch)
        ((process_ads_triggers g v1).1.prev_ads_values ch) := by
      rw [hp, hs]
      unfold rising_edge
      intro h
      omega
    have hnf : ¬ falling_edge ((process_ads_triggers g v1).1.ads_triggered ch) (v2 ch)
        ((process_ads_triggers g v1).1.prev_ads_values ch) := by
      rw [hp, hs]
      unfold falling_edge
      intro h
      omega
    refine ⟨?_, ?_, ?_, ?_⟩
    · rw [edges_of_process ch h0]
      simp only [hnr, hnf, if_false]
    · rw [process_prev, hp]
      simp [h0, hs]
    · rw [process_flag]
      simp only [h0, if_false, next_flag, hnr, hnf]
    · intro _ ht hprev h500
      have hf : falling_edge (g.ads_triggered ch) (v1 ch) (g.prev_ads_values ch) := by
        unfold falling_edge ADS_THRESHOLD
        exact ⟨ht, by omega, hprev⟩
      have hr : ¬ rising_edge (g.ads_triggered ch) (v1 ch) (g.prev_ads_values ch) := by
        unfold rising_edge
        intro h
        rw [ht] at h
        exact Bool.noConfusion h.1
      constructor
      · rw [edges_of_process ch h0]
        simp only [hr, hf, if_false, if_true]
      · rw [process_flag]
        simp only [h0, if_false, next_flag, hr, hf, if_true]

/-- C15, from the state in which channel 1 stands at (600, triggered): two calls with the
sample 500 for channel 1 (and different samples for channel 5). -/
theorem edge_detector_idempotent_witness :
    values_of [0, 500, 0, 0, 0, 700] 1 = values_of [0, 500, 0, 0, 0, 0] 1
    ∧ edges_of 1 (process_ads_triggers
          (process_ads_triggers
            (process_ads_triggers initial_globals (values_of [0, 600, 0, 0, 0, 0])).1
            (values_of [0, 500, 0, 0, 0, 0])).1
          (values_of [0, 500, 0, 0, 0, 700])).2 = []
    ∧ edges_of 1 (process_ads_triggers
          (process_ads_triggers initial_globals (values_of [0, 600, 0, 0, 0, 0])).1
          (values_of [0, 500, 0, 0, 0, 0])).2 = [Edge.Release] :=
  ⟨by decide,
   (edge_detector_idempotent
      (process_ads_triggers initial_globals (values_of [0, 600, 0, 0, 0, 0])).1
      (values_of [0, 500, 0, 0, 0, 0]) (values_of [0, 500, 0, 0, 0, 700]) 1 (by decide)).1,
   ((edge_detector_idempotent
      (process_ads_triggers initial_globals (values_of [0, 600, 0, 0, 0, 0])).1
      (values_of [0, 500, 0, 0, 0, 0]) (values_of [0, 500, 0, 0, 0, 700]) 1 (by decide)).2.2.2
      (by decide) (by decide) (by decide) (by decide)).1⟩

theorem globals_after_inv (ch : Fin 6) (vs : List (Fin 6 → Int)) :
    ∀ g : Globals, (g.ads_triggered ch = true ↔ g.prev_ads_values ch > 500) →
      ((globals_after g vs).ads_triggered ch = true
        ↔ (globals_after g vs).prev_ads_values ch > 500) := by
  induction vs with
  | nil => intro g h; exact h
  | cons v vs ih =>
    intro g h
    exact ih _ (process_inv ch g v h)

/-- C16. The triggered flag is redundant with the stored sample: in every detector state
reached from the initial state (previous samples 0, flags false, any channel/sound
table) by a series of calls of `process_ads_triggers` with arbitrary samples, for every
ADS channel the flag is set iff the stored sample is above 500. Consequently, in such a
state, the condition of the rising branch holds iff the new sample is above 500 and the
stored one is not, and the condition of the falling branch holds iff the new sample is
not above 500 and the stored one is: the flag tests suppress no edge. -/
theorem flag_follows_sample (mapping : Fin 6 → Int) (vs : List (Fin 6 → Int)) (ch : Fin 6) :
    ((globals_after (globals_at_load mapping) vs).ads_triggered ch = true
      ↔ (globals_after (globals_at_load mapping) vs).prev_ads_values ch > 500)
    ∧ (∀ current_value : Int,
        (rising_edge ((globals_after (globals_at_load mapping) vs).ads_triggered ch)
            current_value ((globals_after (globals_at_load mapping) vs).prev_ads_values ch)
          ↔ current_value > 500
              ∧ (globals_after (globals_at_load mapping) vs).prev_ads_values ch ≤ 500)
        ∧ (falling_edge ((globals_after (globals_at_load mapping) vs).ads_triggered ch)
            current_value ((globals_after (globals_at_load mapping) vs).prev_ads_values ch)
          ↔ current_value ≤ 500
              ∧ (globals_after (globals_at_load mapping) vs).prev_ads_values ch > 500)) := by
  have inv := globals_after_inv ch vs (globals_at_load mapping) (by simp [globals_at_load])
  refine ⟨inv, ?_⟩
  intro c
  unfold rising_edge falling_edge ADS_THRESHOLD
  cases ht : (globals_after (globals_at_load mapping) vs).ads_triggered ch
  · have hp : ¬ (globals_after (globals_at_load mapping) vs).prev_ads_values ch > 500 := by
      intro h
      have := inv.mpr h
      rw [ht] at this
      exact Bool.noConfusion this
    constructor
    · constructor
      · intro h; exact ⟨h.2.1, h.2.2⟩
      · intro h; exact ⟨rfl, h.1, h.2⟩
    · constructor
      · intro h; exact absurd h.1 (by simp)
      · intro h; exact absurd h.2 hp
  · have hp : (globals_after (globals_at_load mapping) vs).prev_ads_values ch > 500 :=
      inv.mp ht
    constructor
    · constructor
      · intro h; exact absurd h.1 (by simp)
      · intro h; omega
    · constructor
      · intro h; exact ⟨h.2.1, h.2.2⟩
      · intro h; exact ⟨rfl, h.1, h.2⟩

/-! ## Lemmas on the sampling loop -/

/-- One iteration of the sampling loop, when its two results are returned. -/
theorem sample_iteration_result {σ : Type} (io : I2C σ) (fuel : Nat) (file : Int)
    (acc : Out σ (Option (Fin 6 → Int))) (i : Fin 3) (values : Fin 6 → Int) (v1 v2 : Int)
    (hacc : acc.ret = some values)
    (h1 : (ADS1115_get_result io fuel ((i.val : Int) + 1) file
        (ADS1115_start_reading io ((i.val : Int) + 4) file
          (ADS1115_start_reading io (i.val : Int) file acc.state).state).state).ret = some v1)
    (h2 : (ADS1115_get_result io fuel ((i.val : Int) + 5) file
        (ADS1115_get_result io fuel ((i.val : Int) + 1) file
          (ADS1115_start_reading io ((i.val : Int) + 4) file
            (ADS1115_start_reading io (i.val : Int) file acc.state).state).state).state).ret
        = some v2) :
    (sample_iteration io fuel file acc i).ret
      = some (Function.update (Function.update values ⟨i.val, by omega⟩ v1)
          ⟨i.val + 3, by omega⟩ v2) := by
  unfold sample_iteration
  simp only [hacc, h1, h2]

/-- The state and the calls of one iteration do not depend on the content of `values`,
and the cells written so far do not depend on its initial content. -/
theorem sample_iteration_agree {σ : Type} (io : I2C σ) (fuel : Nat) (file : Int)
    (acc acc' : Out σ (Option (Fin 6 → Int))) (i : Fin 3)
    (hs : acc.state = acc'.state) (ht : acc.trace = acc'.trace)
    (hr : (acc.ret = none ∧ acc'.ret = none)
      ∨ ∃ v v', acc.ret = some v ∧ acc'.ret = some v'
          ∧ ∀ j : Fin 6, j.val % 3 < i.val → v j = v' j) :
    (sample_iteration io fuel file acc i).state = (sample_iteration io fuel file acc' i).state
    ∧ (sample_iteration io fuel file acc i).trace = (sample_iteration io fuel file acc' i).trace
    ∧ (((sample_iteration io fuel file acc i).ret = none
          ∧ (sample_iteration io fuel file acc' i).ret = none)
      ∨ ∃ v v', (sample_iteration io fuel file acc i).ret = some v
          ∧ (sample_iteration io fuel file acc' i).ret = some v'
          ∧ ∀ j : Fin 6, j.val % 3 < i.val + 1 → v j = v' j) := by
  rcases hr with ⟨n1, n2⟩ | ⟨v, v', e1, e2, hag⟩
  · have q1 : sample_iteration io fuel file acc i = acc := by
      unfold sample_iteration
      simp only [n1]
    have q2 : sample_iteration io fuel file acc' i = acc' := by
      unfold sample_iteration
      simp only [n2]
    rw [q1, q2]
    exact ⟨hs, ht, Or.inl ⟨n1, n2⟩⟩
  · unfold sample_iteration
    simp only [e1, e2, ← hs, ← ht]
    cases hc : (ADS1115_get_result io fuel ((i.val : Int) + 1) file
        (ADS1115_start_reading io ((i.val : Int) + 4) file
          (ADS1115_start_reading io (i.val : Int) file acc.state).state).state).ret with
    | none => exact ⟨rfl, rfl, Or.inl ⟨rfl, rfl⟩⟩
    | some v1 =>
      simp only
      cases hd : (ADS1115_get_result io fuel ((i.val : Int) + 5) file
          (ADS1115_get_result io fuel ((i.val : Int) + 1) file
            (ADS1115_start_reading io ((i.val : Int) + 4) file
              (ADS1115_start_reading io (i.val : Int) file acc.state).state).state).state).ret with
      | none => exact ⟨rfl, rfl, Or.inl ⟨rfl, rfl⟩⟩
      | some v2 =>
        refine ⟨rfl, rfl, Or.inr ⟨_, _, rfl, rfl, ?_⟩⟩
        intro j hj
        have hi := i.isLt
        have hjl := j.isLt
        by_cases ha : j = ⟨i.val + 3, by omega⟩
        · rw [ha]
          simp
        · by_cases hb : j = ⟨i.val, by omega⟩
          · rw [hb]
            simp [Function.update, Fin.ext_iff]
          · have hv : j.val ≠ i.val + 3 := fun e => ha (Fin.ext e)
            have hw : j.val ≠ i.val := fun e => hb (Fin.ext e)
            simp only [Function.update, ha, hb, dite_false]
            exact hag j (by omega)

/-- The outcome of the sampling loop does not depend on the initial content of
`values`: every cell is overwritten. -/
theorem sample_values_overwrites {σ : Type} (io : I2C σ) (fuel : Nat) (file : Int)
    (values0 values0' : Fin 6 → Int) (s : σ) :
    (sample_values io fuel file values0 s).ret = (sample_values io fuel file values0' s).ret := by
  have a0 := sample_iteration_agree io fuel file
    { state := s, trace := [], ret := some values0 }
    { state := s, trace := [], ret := some values0' } 0 rfl rfl
    (Or.inr ⟨values0, values0', rfl, rfl, fun j hj => absurd hj (Nat.not_lt_zero _)⟩)
  have a1 := sample_iteration_agree io fuel file _ _ 1 a0.1 a0.2.1 a0.2.2
  have a2 := sample_iteration_agree io fuel file _ _ 2 a1.1 a1.2.1 a1.2.2
  unfold sample_values
  rw [finRange_three]
  simp only [List.foldl]
  rcases a2.2.2 with ⟨n1, n2⟩ | ⟨v, v', e1, e2, hag⟩
  · rw [n1, n2]
  · rw [e1, e2]
    congr 1
    funext j
    exact hag j (by have := Nat.mod_lt j.val (show 3 > 0 by decide); simpa using this)

/-- C17. In the sampling loop of `main`, for `i` in 0, 1, 2: `ADS1115_get_result(i+1)`
selects the address that `ADS1115_start_reading(i)` selected, the base address, where
local channel `i` was started; `ADS1115_get_result(i+5)` selects the address that
`ADS1115_start_reading(i+4)` selected, base + 1, where local channel `i` was started. On
a bus that acknowledges the selects and whose clock advances, iteration `i` shows the
two starts followed by the two fetches, no other start in between, and writes the value
returned by the first fetch to `values[i]` and the one returned by the second to
`values[i+3]`, leaving the other cells. Over the three iterations each index 0..5 is
written exactly once, so the samples of a tick do not depend on the prior content of
`values`. -/
theorem sampling_reads_started_device {σ : Type} (io : I2C σ) (time : σ → Int) (fuel : Nat)
    (file : Int) (s : σ) (values : Fin 6 → Int) (i : Fin 3) (hclock : advancing_clock io time)
    (hio : ∀ s f a, ¬ (io.ioctl s f a).2 < 0) (hfuel : 101001 ≤ fuel) :
    (ADS1115_start_reading_select (i.val : Int) = ((i.val : Int), 0x48, [])
      ∧ (ADS1115_get_result_select ((i.val : Int) + 1)).2.1
          = (ADS1115_start_reading_select (i.val : Int)).2.1)
    ∧ (ADS1115_start_reading_select ((i.val : Int) + 4) = ((i.val : Int), 0x49, [])
      ∧ (ADS1115_get_result_select ((i.val : Int) + 5)).2.1
          = (ADS1115_start_reading_select ((i.val : Int) + 4)).2.1)
    ∧ ops_of (sample_iteration io fuel file { state := s, trace := [], ret := some values }
          i).trace
        = [Op.start (i.val : Int), Op.start ((i.val : Int) + 4), Op.fetch 0x48, Op.fetch 0x49]
    ∧ (∃ v1 v2,
        (ADS1115_get_result io fuel ((i.val : Int) + 1) file
          (ADS1115_start_reading io ((i.val : Int) + 4) file
            (ADS1115_start_reading io (i.val : Int) file s).state).state).ret = some v1
        ∧ (ADS1115_get_result io fuel ((i.val : Int) + 5) file
            (ADS1115_get_result io fuel ((i.val : Int) + 1) file
              (ADS1115_start_reading io ((i.val : Int) + 4) file
                (ADS1115_start_reading io (i.val : Int) file s).state).state).state).ret
            = some v2
        ∧ (sample_iteration io fuel file { state := s, trace := [], ret := some values } i).ret
            = some (Function.update (Function.update values ⟨i.val, by omega⟩ v1)
                ⟨i.val + 3, by omega⟩ v2))
    ∧ (∀ j : Fin 6,
        ((List.finRange 3).flatMap (fun k : Fin 3 => [k.val, k.val + 3])).count j.val = 1)
    ∧ (∀ values' : Fin 6 → Int,
        (sample_values io fuel file values s).ret = (sample_values io fuel file values' s).ret)
    := by
  obtain ⟨g1, g2, g3, g4⟩ := sampling_selects i
  obtain ⟨v1, h1⟩ := get_result_returns io time hclock fuel hfuel ((i.val : Int) + 1) file
    (ADS1115_start_reading io ((i.val : Int) + 4) file
      (ADS1115_start_reading io (i.val : Int) file s).state).state
  obtain ⟨v2, h2⟩ := get_result_returns io time hclock fuel hfuel ((i.val : Int) + 5) file
    (ADS1115_get_result io fuel ((i.val : Int) + 1) file
      (ADS1115_start_reading io ((i.val : Int) + 4) file
        (ADS1115_start_reading io (i.val : Int) file s).state).state).state
  have hret := sample_iteration_result io fuel file
    { state := s, trace := [], ret := some values } i values v1 v2 rfl h1 h2
  have hops := sample_iteration_ops io fuel file hio
    { state := s, trace := [], ret := some values } i [] (fun rest => rfl) _ hret []
  refine ⟨⟨g3, ?_⟩, ⟨g4, ?_⟩, ?_, ⟨v1, v2, h1, h2, hret⟩, by decide, ?_⟩
  · rw [g1, g3]
  · rw [g2, g4]
  · rw [List.append_nil] at hops
    rw [hops]
    rfl
  · intro values'
    exact sample_values_overwrites io fuel file values values' s

/-- C17, for the second iteration on the bus whose state is its clock. -/
theorem sampling_reads_started_device_witness :
    advancing_clock ticking (fun s => s)
    ∧ (∀ s f a, ¬ (ticking.ioctl s f a).2 < 0)
    ∧ 101001 ≤ 101001
    ∧ ops_of (sample_iteration ticking 101001 3
          { state := 0, trace := [], ret := some (fun _ => 0) } 1).trace
        = [Op.start (((1 : Fin 3).val : Nat) : Int), Op.start ((((1 : Fin 3).val : Nat) : Int) + 4),
           Op.fetch 0x48, Op.fetch 0x49] :=
  ⟨ticking_advances, fun s f a => by simp [ticking], by decide,
   (sampling_reads_started_device ticking (fun s => s) 101001 3 0 (fun _ => 0) 1
      ticking_advances (fun s f a => by simp [ticking]) (by decide)).2.2.1⟩

/-! ## Lemmas on the key handler -/

theorem panel_maps_in_bounds (i : Int) (h0 : 0 ≤ i) (h5 : i ≤ 5) :
    (0 ≤ panel_up i ∧ panel_up i ≤ 5) ∧ (0 ≤ panel_down i ∧ panel_down i ≤ 5)
    ∧ (0 ≤ panel_left i ∧ panel_left i ≤ 5) ∧ (0 ≤ panel_right i ∧ panel_right i ≤ 5) := by
  interval_cases i <;> decide

theorem process_keyev_index (g : Globals) (k : KeyState) (ev : Option input_event) :
    (process_keyev g k ev).2.1.current_panel_index = k.current_panel_index
    ∨ (ev = key_press KEY_UP ∧ k.current_screen = 0
        ∧ (process_keyev g k ev).2.1.current_panel_index = panel_up k.current_panel_index)
    ∨ (ev = key_press KEY_DOWN ∧ k.current_screen = 0
        ∧ (process_keyev g k ev).2.1.current_panel_index = panel_down k.current_panel_index)
    ∨ (ev = key_press KEY_LEFT ∧ k.current_screen = 0
        ∧ (process_keyev g k ev).2.1.current_panel_index = panel_left k.current_panel_index)
    ∨ (ev = key_press KEY_RIGHT ∧ k.current_screen = 0
        ∧ (process_keyev g k ev).2.1.current_panel_index
            = panel_right k.current_panel_index) := by
  cases ev with
  | none => exact Or.inl rfl
  | some ie =>
    obtain ⟨ty, code, value⟩ := ie
    unfold process_keyev
    simp only
    by_cases ht : ty = EV_KEY
    swap
    · left; rw [if_neg ht]
    by_cases hv : value = 1
    swap
    · left
      rw [if_pos ht, if_neg hv]
      split_ifs <;> rfl
    rw [if_pos ht, if_pos hv]
    subst ht hv
    by_cases hs : k.current_screen = 0
    swap
    · left
      rw [if_neg hs]
      split_ifs <;> rfl
    rw [if_pos hs]
    by_cases h1 : code = KEY_UP
    · right; left
      rw [if_pos h1, h1]
      exact ⟨rfl, hs, rfl⟩
    by_cases h2 : code = KEY_DOWN
    · right; right; left
      rw [if_neg h1, if_pos h2, h2]
      exact ⟨rfl, hs, rfl⟩
    by_cases h3 : code = KEY_LEFT
    · right; right; right; left
      rw [if_neg h1, if_neg h2, if_pos h3, h3]
      exact ⟨rfl, hs, rfl⟩
    by_cases h4 : code = KEY_RIGHT
    · right; right; right; right
      rw [if_neg h1, if_neg h2, if_neg h3, if_pos h4, h4]
      exact ⟨rfl, hs, rfl⟩
    left
    rw [if_neg h1, if_neg h2, if_neg h3, if_neg h4]
    split_ifs <;> rfl

theorem process_keyev_in_bounds (g : Globals) (k : KeyState) (ev : Option input_event)
    (h0 : 0 ≤ k.current_panel_index) (h5 : k.current_panel_index ≤ 5) :
    0 ≤ (process_keyev g k ev).2.1.current_panel_index
    ∧ (process_keyev g k ev).2.1.current_panel_index ≤ 5 := by
  obtain ⟨u, d, l, r⟩ := panel_maps_in_bounds k.current_panel_index h0 h5
  rcases process_keyev_index g k ev with e | ⟨_, _, e⟩ | ⟨_, _, e⟩ | ⟨_, _, e⟩ | ⟨_, _, e⟩
  · rw [e]; exact ⟨h0, h5⟩
  · rw [e]; exact u
  · rw [e]; exact d
  · rw [e]; exact l
  · rw [e]; exact r

theorem after_key_events_in_bounds (evs : List (Option input_event)) :
    ∀ (g : Globals) (k : KeyState), 0 ≤ k.current_panel_index → k.current_panel_index ≤ 5 →
      0 ≤ (after_key_events g k evs).2.current_panel_index
      ∧ (after_key_events g k evs).2.current_panel_index ≤ 5 := by
  induction evs with
  | nil => intro g k h0 h5; exact ⟨h0, h5⟩
  | cons ev evs ih =>
    intro g k h0 h5
    obtain ⟨b0, b5⟩ := process_keyev_in_bounds g k ev h0 h5
    exact ih _ _ b0 b5

theorem process_keyev_arrow (g : Globals) (k : KeyState) (hs : k.current_screen = 0) :
    (process_keyev g k (key_press KEY_UP)).2.1
        = { k with current_panel_index := panel_up k.current_panel_index }
    ∧ (process_keyev g k (key_press KEY_DOWN)).2.1
        = { k with current_panel_index := panel_down k.current_panel_index }
    ∧ (process_keyev g k (key_press KEY_LEFT)).2.1
        = { k with current_panel_index := panel_left k.current_panel_index }
    ∧ (process_keyev g k (key_press KEY_RIGHT)).2.1
        = { k with current_panel_index := panel_right k.current_panel_index }
    ∧ (process_keyev g k (key_press KEY_UP)).1 = g
    ∧ (process_keyev g k (key_press KEY_DOWN)).1 = g
    ∧ (process_keyev g k (key_press KEY_LEFT)).1 = g
    ∧ (process_keyev g k (key_press KEY_RIGHT)).1 = g := by
  have d1 : ¬ KEY_DOWN = KEY_UP := by decide
  have l1 : ¬ KEY_LEFT = KEY_UP := by decide
  have l2 : ¬ KEY_LEFT = KEY_DOWN := by decide
  have r1 : ¬ KEY_RIGHT = KEY_UP := by decide
  have r2 : ¬ KEY_RIGHT = KEY_DOWN := by decide
  have r3 : ¬ KEY_RIGHT = KEY_LEFT := by decide
  unfold process_keyev key_press
  simp only [hs, if_true, d1, l1, l2, r1, r2, r3, if_false, move_panel, and_self]

theorem panel_maps (i : Int) (h0 : 0 ≤ i) (h5 : i ≤ 5) :
    panel_up i = (i + 3) % 6 ∧ panel_down i = (i + 3) % 6
    ∧ (panel_left i / 3 = i / 3 ∧ panel_left i % 3 = (i + 2) % 3)
    ∧ (panel_right i / 3 = i / 3 ∧ panel_right i % 3 = (i + 1) % 3)
    ∧ panel_right (panel_left i) = i ∧ panel_left (panel_right i) = i := by
  interval_cases i <;> decide

/-- C18. Panel selection stays in bounds: from `current_panel_index = 0`, after any
series of events handled by `process_keyev` (any keys, presses or releases, on either
screen, or reads without a complete event) `current_panel_index` is in 0..5. On the panel
screen, for an index `i` in 0..5, a press of UP and a press of DOWN each give
`(i + 3) mod 6`; a press of LEFT and a press of RIGHT keep the row `floor(i / 3)` and
move one column back and one column on, cyclically, and each undoes the other. On the
other screen, and for any other event, the index is unchanged. -/
theorem panel_index_in_bounds (g : Globals) (evs : List (Option input_event)) :
    (key_state_at_load.current_panel_index = 0
      ∧ 0 ≤ (after_key_events g key_state_at_load evs).2.current_panel_index
      ∧ (after_key_events g key_state_at_load evs).2.current_panel_index ≤ 5)
    ∧ (∀ (g : Globals) (k : KeyState),
        0 ≤ k.current_panel_index → k.current_panel_index ≤ 5 → k.current_screen = 0 →
        (process_keyev g k (key_press KEY_UP)).2.1.current_panel_index
            = (k.current_panel_index + 3) % 6
        ∧ (process_keyev g k (key_press KEY_DOWN)).2.1.current_panel_index
            = (k.current_panel_index + 3) % 6
        ∧ ((process_keyev g k (key_press KEY_LEFT)).2.1.current_panel_index / 3
              = k.current_panel_index / 3
          ∧ (process_keyev g k (key_press KEY_LEFT)).2.1.current_panel_index % 3
              = (k.current_panel_index + 2) % 3)
        ∧ ((process_keyev g k (key_press KEY_RIGHT)).2.1.current_panel_index / 3
              = k.current_panel_index / 3
          ∧ (process_keyev g k (key_press KEY_RIGHT)).2.1.current_panel_index % 3
              = (k.current_panel_index + 1) % 3)
        ∧ (process_keyev (process_keyev g k (key_press KEY_LEFT)).1
              (process_keyev g k (key_press KEY_LEFT)).2.1
              (key_press KEY_RIGHT)).2.1.current_panel_index = k.current_panel_index
        ∧ (process_keyev (process_keyev g k (key_press KEY_RIGHT)).1
              (process_keyev g k (key_press KEY_RIGHT)).2.1
              (key_press KEY_LEFT)).2.1.current_panel_index = k.current_panel_index)
    ∧ (∀ (g : Globals) (k : KeyState) (ev : Option input_event),
        (k.current_screen ≠ 0 ∨ (ev ≠ key_press KEY_UP ∧ ev ≠ key_press KEY_DOWN
            ∧ ev ≠ key_press KEY_LEFT ∧ ev ≠ key_press KEY_RIGHT)) →
        (process_keyev g k ev).2.1.current_panel_index = k.current_panel_index) := by
  refine ⟨⟨rfl, after_key_events_in_bounds evs g key_state_at_load (by decide) (by decide)⟩,
    ?_, ?_⟩
  · intro g k h0 h5 hs
    obtain ⟨a1, a2, a3, a4, b1, b2, b3, b4⟩ := process_keyev_arrow g k hs
    obtain ⟨m1, m2, ⟨m3, m4⟩, ⟨m5, m6⟩, m7, m8⟩ := panel_maps k.current_panel_index h0 h5
    have hl := process_keyev_arrow g { k with current_panel_index := panel_left k.current_panel_index } hs
    have hr := process_keyev_arrow g { k with current_panel_index := panel_right k.current_panel_index } hs
    refine ⟨?_, ?_, ⟨?_, ?_⟩, ⟨?_, ?_⟩, ?_, ?_⟩
    · rw [a1]; exact m1
    · rw [a2]; exact m2
    · rw [a3]; exact m3
    · rw [a3]; exact m4
    · rw [a4]; exact m5
    · rw [a4]; exact m6
    · rw [a3, b3, hl.2.2.2.1]; exact m7
    · rw [a4, b4, hr.2.2.1]; exact m8
  · intro g k ev h
    rcases process_keyev_index g k ev with e | ⟨e1, e2, _⟩ | ⟨e1, e2, _⟩ | ⟨e1, e2, _⟩ | ⟨e1, e2, _⟩
    · exact e
    · rcases h with h | h
      · exact absurd e2 h
      · exact absurd e1 h.1
    · rcases h with h | h
      · exact absurd e2 h
      · exact absurd e1 h.2.1
    · rcases h with h | h
      · exact absurd e2 h
      · exact absurd e1 h.2.2.1
    · rcases h with h | h
      · exact absurd e2 h
      · exact absurd e1 h.2.2.2

end DrumKit
